import Mathlib

/-!
Verification of `src/dev/opencl/routines.h`.

A shallow embedding of the two routines `cl_matmul_forward` and
`cl_matmul_backward`, followed by the theorems about them.

Modelling conventions.

* A `float*` argument is the map from element offset to the value stored there
  (`Nat → α`); a store `p[k] = v` is `Function.update p k v`.  The element type
  `α` is abstract: the definitions only use `+` and `*`, theorems that need
  algebra assume a commutative ring (or a field).
* The pointers handed to a routine are taken to address pairwise distinct
  buffers, and a pointer that may be `NULL` is an `Option`.
* In `cl_matmul_backward` the shape arguments and loop counters are
  non-negative `int`s and are embedded as `Nat`.  The products `b * T * OC`,
  `t * OC`, `b * T * C`, `t * C` and `o * C` are computed in 32-bit `int`: a
  product that exceeds `INT_MAX` is a signed overflow, after which the routine
  has no defined behaviour (its value would be used as a pointer offset), and
  the embedding returns no result (`none`).  The routine therefore returns an
  `Option`.
* In `cl_matmul_forward` the grid and byte-count computations are carried out
  in `size_t`; they are embedded with explicit reduction modulo `2^64`, the
  `int` product `B * T` with 32-bit two's complement wrap-around, and the
  `cl_int` status codes with the bitwise OR of their 32-bit patterns.
* The OpenCL runtime, the device kernel and the constant `MATMUL_TILE_SIZE`
  are not part of the file: the status code of every device call, the kernel
  and the tile size are parameters of the embedding.
-/

namespace MlInference

/-! ## Loops -/

/-- The loop `for (int i = 0; i < n; i++) body(i)` acting on a state `s`. -/
def forLoop {σ : Type} (n : Nat) (body : Nat → σ → σ) (s : σ) : σ :=
  match n with
  | 0 => s
  | k + 1 => body k (forLoop k body s)

/-- The same loop with a body that may have no result: the loop has a result
when every iteration has one. -/
def forLoopOpt {σ : Type} (n : Nat) (body : Nat → σ → Option σ) (s : σ) : Option σ :=
  match n with
  | 0 => some s
  | k + 1 => (forLoopOpt k body s).bind (body k)

/-! ## `cl_matmul_backward` -/

/-- The six buffers `cl_matmul_backward` receives.  `dbias` may be `NULL`. -/
structure Bufs (α : Type) where
  dinp : Nat → α
  dweight : Nat → α
  dbias : Option (Nat → α)
  dout : Nat → α
  inp : Nat → α
  weight : Nat → α

/-- The product `a * b` of two non-negative `int`s (32 bits): it has no value
when it exceeds `INT_MAX = 2^31 - 1`. -/
def mul_int (a b : Nat) : Option Nat :=
  if a * b < 2 ^ 31 then some (a * b) else none

/-- The pointer offset `b * T * N + t * N` of lines 64, 65, 83 and 84: the two
`int` products `b * T * N` (that is `(b * T) * N`) and `t * N`, each added to
the pointer. -/
def slice_offset (T N b t : Nat) : Option Nat :=
  (mul_int b T).bind fun bT =>
  (mul_int bT N).bind fun bTN =>
  (mul_int t N).bind fun tN =>
  some (bTN + tN)

section Backward

variable {α : Type} [Add α] [Mul α]

/-- Line 70, `dinp_bt[i] += wrow[i] * d;` with `dinp_bt` and `wrow` given as
offsets into `dinp` and `weight`. -/
def pass1_store (dinp_bt wrow : Nat) (d : α) (i : Nat) (m : Bufs α) : Bufs α :=
  { m with
    dinp := Function.update m.dinp (dinp_bt + i) (m.dinp (dinp_bt + i) + m.weight (wrow + i) * d) }

/-- Lines 64-72: the body of the collapsed `(b, t)` loop of the first pass. -/
def pass1_iter (T C OC : Nat) (b t : Nat) (m : Bufs α) : Option (Bufs α) :=
  (slice_offset T OC b t).bind fun dout_bt =>
  (slice_offset T C b t).bind fun dinp_bt =>
  forLoopOpt OC (fun o m =>
    (mul_int o C).bind fun wrow =>
    let d := m.dout (dout_bt + o)
    some (forLoop C (fun i m => pass1_store dinp_bt wrow d i m) m)) m

/-- Lines 61-74: the first pass, in sequential loop order. -/
def pass1 (B T C OC : Nat) (m : Bufs α) : Option (Bufs α) :=
  forLoopOpt B (fun b m => forLoopOpt T (fun t m => pass1_iter T C OC b t m) m) m

/-- Line 87, `if (dbias != NULL) { dbias[o] += d; }`. -/
def pass2_bias (o : Nat) (d : α) (m : Bufs α) : Bufs α :=
  match m.dbias with
  | some db => { m with dbias := some (Function.update db o (db o + d)) }
  | none => m

/-- Line 89, `dwrow[i] += inp_bt[i] * d;` with `dwrow` and `inp_bt` given as
offsets into `dweight` and `inp`. -/
def pass2_store (dwrow inp_bt : Nat) (d : α) (i : Nat) (m : Bufs α) : Bufs α :=
  { m with
    dweight := Function.update m.dweight (dwrow + i) (m.dweight (dwrow + i) + m.inp (inp_bt + i) * d) }

/-- Lines 83-90: the body of the innermost `(b, t)` loops of the second pass. -/
def pass2_step (T C OC : Nat) (o b t : Nat) (m : Bufs α) : Option (Bufs α) :=
  (slice_offset T OC b t).bind fun dout_bt =>
  (slice_offset T C b t).bind fun inp_bt =>
  (mul_int o C).bind fun dwrow =>
  let d := m.dout (dout_bt + o)
  let m := pass2_bias o d m
  some (forLoop C (fun i m => pass2_store dwrow inp_bt d i m) m)

/-- Lines 81-92: the body of the parallel `o` loop of the second pass. -/
def pass2_iter (B T C OC : Nat) (o : Nat) (m : Bufs α) : Option (Bufs α) :=
  forLoopOpt B (fun b m => forLoopOpt T (fun t m => pass2_step T C OC o b t m) m) m

/-- Lines 79-93: the second pass, in sequential loop order. -/
def pass2 (B T C OC : Nat) (m : Bufs α) : Option (Bufs α) :=
  forLoopOpt OC (fun o m => pass2_iter B T C OC o m) m

/-- The routine `cl_matmul_backward` (lines 54-94): first pass, then second
pass.  The context argument `gcl` is not used by the routine. -/
def cl_matmul_backward (B T C OC : Nat) (m : Bufs α) : Option (Bufs α) :=
  (pass1 B T C OC m).bind (pass2 B T C OC)

end Backward

/-! ## The routine with exact offsets

The same loops with every offset taken as the exact natural number.  They are
what the routine computes when no `int` product overflows, and serve to state
and prove the properties of the result. -/

section Exact

variable {α : Type} [Add α] [Mul α]

/-- The body of the `(b, t)` loop of the first pass, with exact offsets. -/
def pass1_iter_ideal (T C OC : Nat) (b t : Nat) (m : Bufs α) : Bufs α :=
  let dout_bt := b * T * OC + t * OC
  let dinp_bt := b * T * C + t * C
  forLoop OC (fun o m =>
    let wrow := o * C
    let d := m.dout (dout_bt + o)
    forLoop C (fun i m => pass1_store dinp_bt wrow d i m) m) m

/-- The first pass with exact offsets. -/
def pass1_ideal (B T C OC : Nat) (m : Bufs α) : Bufs α :=
  forLoop B (fun b m => forLoop T (fun t m => pass1_iter_ideal T C OC b t m) m) m

/-- The body of the innermost loops of the second pass, with exact offsets. -/
def pass2_step_ideal (T C OC : Nat) (o b t : Nat) (m : Bufs α) : Bufs α :=
  let dout_bt := b * T * OC + t * OC
  let inp_bt := b * T * C + t * C
  let dwrow := o * C
  let d := m.dout (dout_bt + o)
  let m := pass2_bias o d m
  forLoop C (fun i m => pass2_store dwrow inp_bt d i m) m

/-- The body of the `o` loop of the second pass, with exact offsets. -/
def pass2_iter_ideal (B T C OC : Nat) (o : Nat) (m : Bufs α) : Bufs α :=
  forLoop B (fun b m => forLoop T (fun t m => pass2_step_ideal T C OC o b t m) m) m

/-- The second pass with exact offsets. -/
def pass2_ideal (B T C OC : Nat) (m : Bufs α) : Bufs α :=
  forLoop OC (fun o m => pass2_iter_ideal B T C OC o m) m

/-- Both passes with exact offsets. -/
def backward_ideal (B T C OC : Nat) (m : Bufs α) : Bufs α :=
  pass2_ideal B T C OC (pass1_ideal B T C OC m)

end Exact

/-! ## Cell-wise description of the passes -/

section Cells

variable {α : Type}

/-- Cell-wise update of the three gradient buffers: every cell of `dinp`,
`dweight` and (when present) `dbias` is replaced by a function of its index and
its old content; `dout`, `inp` and `weight` are kept. -/
def Bufs.pointwise (m : Bufs α) (F G H : Nat → α → α) : Bufs α :=
  { m with
    dinp := fun k => F k (m.dinp k)
    dweight := fun k => G k (m.dweight k)
    dbias := m.dbias.map (fun db k => H k (db k)) }

variable [Add α] [Mul α]

/-- The value `((v + f 0) + f 1) + ... + f (n-1)`: what a cell holds after the
loop `for (j = 0; j < n; j++) cell += f(j)`, in that order. -/
def accum (n : Nat) (f : Nat → α) (v : α) : α :=
  forLoop n (fun j v => v + f j) v

/-- What iteration `(b, t)` of the first pass does to cell `k` of `dinp`. -/
def pass1_cell (T C OC : Nat) (dout weight : Nat → α) (b t k : Nat) (v : α) : α :=
  if b * T * C + t * C ≤ k ∧ k < b * T * C + t * C + C then
    accum OC (fun o => weight (o * C + (k - (b * T * C + t * C))) * dout (b * T * OC + t * OC + o)) v
  else v

/-- What iteration `o` of the second pass does to cell `k` of `dweight`. -/
def pass2_cell (B T C OC : Nat) (dout inp : Nat → α) (o k : Nat) (v : α) : α :=
  if o * C ≤ k ∧ k < o * C + C then
    forLoop B (fun b v =>
      accum T (fun t => inp (b * T * C + t * C + (k - o * C)) * dout (b * T * OC + t * OC + o)) v) v
  else v

/-- What iteration `o` of the second pass does to cell `k` of `dbias`. -/
def pass2_bcell (B T OC : Nat) (dout : Nat → α) (o k : Nat) (v : α) : α :=
  if k = o then forLoop B (fun b v => accum T (fun t => dout (b * T * OC + t * OC + o)) v) v
  else v

end Cells

/-! ## Vocabulary for the statements about `cl_matmul_backward` -/

section BackwardVocabulary

variable {α : Type}

/-- The same gradient buffers, with the read-only arguments of a call replaced. -/
def Bufs.withArgs (m : Bufs α) (dout inp weight : Nat → α) : Bufs α :=
  { m with dout := dout, inp := inp, weight := weight }

/-- The same arguments, with zero-initialised gradient buffers (`dbias` stays
present or absent as it is). -/
def Bufs.zeroGrads [Zero α] (m : Bufs α) : Bufs α :=
  { m with
    dinp := fun _ => 0
    dweight := fun _ => 0
    dbias := m.dbias.map (fun _ _ => 0) }

/-- Cell-wise sum of two optional buffers, present when both are. -/
def addOpt [Add α] : Option (Nat → α) → Option (Nat → α) → Option (Nat → α)
  | some f, some g => some (fun k => f k + g k)
  | _, _ => none

/-- The exact-offset routine on the gradient buffers of `G` with the read-only
arguments `dout`, `inp`, `weight`. -/
def ideal_on [Add α] [Mul α] (B T C OC : Nat) (G : Bufs α) (dout inp weight : Nat → α) :
    Bufs α :=
  backward_ideal B T C OC (G.withArgs dout inp weight)

/-- The exact-offset routine with the arguments `dout`, `inp`, `weight` on
zero-initialised buffers (with `dbias` present iff it is in `G`). -/
def ideal_gradient_of [Zero α] [Add α] [Mul α] (B T C OC : Nat) (G : Bufs α)
    (dout inp weight : Nat → α) : Bufs α :=
  backward_ideal B T C OC (G.withArgs dout inp weight).zeroGrads

/-- The shapes for which no `int` product of the routine overflows: `B`, `T`,
`C`, `OC` are `int` values and the element counts `B*T`, `B*T*C`, `B*T*OC`,
`OC*C` do not exceed `INT_MAX = 2^31 - 1`. -/
def no_int_overflow (B T C OC : Nat) : Prop :=
  B < 2 ^ 31 ∧ T < 2 ^ 31 ∧ C < 2 ^ 31 ∧ OC < 2 ^ 31
  ∧ B * T < 2 ^ 31 ∧ B * T * C < 2 ^ 31 ∧ B * T * OC < 2 ^ 31 ∧ OC * C < 2 ^ 31

instance (B T C OC : Nat) : Decidable (no_int_overflow B T C OC) :=
  inferInstanceAs (Decidable (B < 2 ^ 31 ∧ T < 2 ^ 31 ∧ C < 2 ^ 31 ∧ OC < 2 ^ 31
    ∧ B * T < 2 ^ 31 ∧ B * T * C < 2 ^ 31 ∧ B * T * OC < 2 ^ 31 ∧ OC * C < 2 ^ 31))

/-- The iterations of the collapsed parallel loop of the first pass, in
sequential order: `(0,0), (0,1), ..., (0,T-1), (1,0), ...`. -/
def pass1_iters (B T : Nat) : List (Nat × Nat) :=
  List.product (List.range B) (List.range T)

/-- The iterations of the parallel loop of the second pass, in sequential order. -/
def pass2_iters (OC : Nat) : List Nat :=
  List.range OC

variable [Add α] [Mul α]

/-- The first pass with its iterations executed in the order of `l`. -/
def pass1_sched (T C OC : Nat) (l : List (Nat × Nat)) (m : Bufs α) : Option (Bufs α) :=
  l.foldl (fun r bt => r.bind (pass1_iter T C OC bt.1 bt.2)) (some m)

/-- The second pass with its iterations executed in the order of `l`. -/
def pass2_sched (B T C OC : Nat) (l : List Nat) (m : Bufs α) : Option (Bufs α) :=
  l.foldl (fun r o => r.bind (pass2_iter B T C OC o)) (some m)

/-- The first pass with exact offsets and its iterations in the order of `l`. -/
def pass1_sched_ideal (T C OC : Nat) (l : List (Nat × Nat)) (m : Bufs α) : Bufs α :=
  l.foldl (fun m bt => pass1_iter_ideal T C OC bt.1 bt.2 m) m

/-- The second pass with exact offsets and its iterations in the order of `l`. -/
def pass2_sched_ideal (B T C OC : Nat) (l : List Nat) (m : Bufs α) : Bufs α :=
  l.foldl (fun m o => pass2_iter_ideal B T C OC o m) m

end BackwardVocabulary

/-! ## The reference forward function and its loss -/

section Reference

variable {α : Type} [CommRing α]

/-- The affine layer of the specification:
`F(inp, weight, bias)[b,t,o] = bias[o] + sum over c < C of inp[b,t,c] * weight[o,c]`. -/
def forward_ref (T C : Nat) (inp weight bias : Nat → α) (b t o : Nat) : α :=
  bias o + ∑ c ∈ Finset.range C, inp ((b * T + t) * C + c) * weight (o * C + c)

/-- The scalar `L = sum over b, t, o of dout[b,t,o] * F[b,t,o]` whose gradient
the backward pass computes. -/
def loss (B T C OC : Nat) (dout inp weight bias : Nat → α) : α :=
  ∑ b ∈ Finset.range B, ∑ t ∈ Finset.range T, ∑ o ∈ Finset.range OC,
    dout ((b * T + t) * OC + o) * forward_ref T C inp weight bias b t o

/-- The buffer `x + h * e_k`: `x` with `h` added to cell `k`. -/
def bump (x : Nat → α) (k : Nat) (h : α) : Nat → α :=
  fun j => if j = k then x j + h else x j

end Reference

/-! ## `cl_matmul_forward` -/

section Forward

/-- Value of an `int` expression converted to `size_t` (64 bits). -/
def to_size_t (x : Int) : Nat :=
  (x % 2 ^ 64).toNat

/-- Product of two `int`s, with 32-bit two's complement wrap-around. -/
def int_mul (a b : Int) : Int :=
  (a * b + 2 ^ 31) % 2 ^ 32 - 2 ^ 31

/-- Addition in `size_t`. -/
def size_add (a b : Nat) : Nat :=
  (a + b) % 2 ^ 64

/-- Subtraction in `size_t`. -/
def size_sub (a b : Nat) : Nat :=
  (a % 2 ^ 64 + (2 ^ 64 - b % 2 ^ 64)) % 2 ^ 64

/-- Multiplication in `size_t`. -/
def size_mul (a b : Nat) : Nat :=
  (a * b) % 2 ^ 64

/-- Line 33, `size_t tile_size = MATMUL_TILE_SIZE;`.  The constant is defined
outside this file and is a parameter here. -/
def tile_size (MATMUL_TILE_SIZE : Nat) : Nat :=
  to_size_t MATMUL_TILE_SIZE

/-- Line 34, `(((B * T) + tile_size - 1) / tile_size) * tile_size`. -/
def bt_round (MATMUL_TILE_SIZE B T : Nat) : Nat :=
  size_mul
    (size_sub (size_add (to_size_t (int_mul B T)) (tile_size MATMUL_TILE_SIZE)) 1
      / tile_size MATMUL_TILE_SIZE)
    (tile_size MATMUL_TILE_SIZE)

/-- Line 35, `((OC + tile_size - 1) / tile_size) * tile_size`. -/
def oc_round (MATMUL_TILE_SIZE OC : Nat) : Nat :=
  size_mul
    (size_sub (size_add (to_size_t OC) (tile_size MATMUL_TILE_SIZE)) 1
      / tile_size MATMUL_TILE_SIZE)
    (tile_size MATMUL_TILE_SIZE)

/-- The operator `|` on two `cl_int` values (32-bit two's complement): the OR of
the two bit patterns, read back as a signed value. -/
def cl_int_or (a b : Int) : Int :=
  let r : Nat := (a % 2 ^ 32).toNat ||| (b % 2 ^ 32).toNat
  if r < 2 ^ 31 then (r : Int) else (r : Int) - 2 ^ 32

/-- The byte count `sizeof(float) * x * y * z` of lines 10 and 46, in `size_t`. -/
def bytes3 (x y z : Nat) : Nat :=
  size_mul (size_mul (size_mul 4 (to_size_t x)) (to_size_t y)) (to_size_t z)

/-- The byte count `sizeof(float) * x * y` of line 11. -/
def bytes2 (x y : Nat) : Nat :=
  size_mul (size_mul 4 (to_size_t x)) (to_size_t y)

/-- The byte count `sizeof(float) * x` of line 13. -/
def bytes1 (x : Nat) : Nat :=
  size_mul 4 (to_size_t x)

/-- The commands the routine submits to the device. -/
inductive DevCall where
  | write_A (bytes : Nat)
  | write_B (bytes : Nat)
  | write_bias (bytes : Nat)
  | set_arg (index : Nat) (value : Int)
  | nd_range (global0 global1 local0 local1 : Nat)
  | finish
  | read_out (bytes : Nat)
deriving DecidableEq

/-- The status code (a `cl_int`) returned by each device call of the routine;
they are inputs of the embedding.  `CL_SUCCESS` is `0`. -/
structure Status where
  write_inp : Int
  write_weight : Int
  write_bias : Int
  arg_B : Int
  arg_T : Int
  arg_C : Int
  arg_OC : Int
  arg_use_bias : Int
  nd_range : Int
  finish : Int
  read_out : Int

variable {α : Type}

/-- The device context `GPT2_CL`, as far as the routine uses it: the four
device buffers, the scalar argument slots of the kernel `matmul_forward`, and
the commands submitted so far. -/
structure GPT2_CL (α : Type) where
  matmul_A : Nat → α
  matmul_B : Nat → α
  matmul_bias : Nat → α
  matmul_out : Nat → α
  kernel_arg : Nat → Int
  calls : List DevCall

/-- The device kernel `matmul_forward`, a parameter of the embedding: from the
device buffers `matmul_A`, `matmul_B`, `matmul_bias`, `matmul_out`, the bound
scalar arguments and the global and local sizes, the new content of `matmul_out`. -/
abbrev Kernel (α : Type) :=
  (Nat → α) → (Nat → α) → (Nat → α) → (Nat → α) → (Nat → Int) → Nat → Nat → Nat → Nat → (Nat → α)

/-- Copy of the first `bytes / sizeof(float)` elements of `src` over `dst`. -/
def copy_floats (bytes : Nat) (src dst : Nat → α) : Nat → α :=
  fun k => if k < bytes / 4 then src k else dst k

/-- The outcome of a call: the device context, the host buffer `out`, what was
printed, and the exit status if the process was terminated (`none` when the
routine returned). -/
structure Run (α : Type) where
  gcl : GPT2_CL α
  out : Nat → α
  printed : List String
  exited : Option Nat

/-- The routine `cl_matmul_forward` (lines 3-52).  A device call that returns
`CL_SUCCESS` has its effect; one that returns an error code has none. -/
def cl_matmul_forward (MATMUL_TILE_SIZE : Nat) (kernel : Kernel α) (st : Status)
    (gcl : GPT2_CL α) (out inp weight : Nat → α) (bias : Option (Nat → α))
    (B T C OC : Nat) : Run α :=
  -- line 10
  let gcl := { gcl with
    matmul_A := if st.write_inp = 0 then copy_floats (bytes3 B T C) inp gcl.matmul_A
      else gcl.matmul_A
    calls := gcl.calls ++ [DevCall.write_A (bytes3 B T C)] }
  let err := st.write_inp
  -- line 11
  let gcl := { gcl with
    matmul_B := if st.write_weight = 0 then copy_floats (bytes2 OC C) weight gcl.matmul_B
      else gcl.matmul_B
    calls := gcl.calls ++ [DevCall.write_B (bytes2 OC C)] }
  let err := cl_int_or err st.write_weight
  -- lines 12-14
  let gcl := match bias with
    | some bv => { gcl with
        matmul_bias := if st.write_bias = 0 then copy_floats (bytes1 OC) bv gcl.matmul_bias
          else gcl.matmul_bias
        calls := gcl.calls ++ [DevCall.write_bias (bytes1 OC)] }
    | none => gcl
  let err := match bias with
    | some _ => cl_int_or err st.write_bias
    | none => err
  -- lines 15-19
  if err ≠ 0 then
    { gcl := gcl, out := out, printed := ["error: failed to write to source array!\n"],
      exited := some 1 }
  else
  -- lines 21-26
  let use_bias : Int := if bias.isSome then 1 else 0
  let set (gcl : GPT2_CL α) (status : Int) (index : Nat) (value : Int) : GPT2_CL α :=
    { gcl with
      kernel_arg := if status = 0 then Function.update gcl.kernel_arg index value
        else gcl.kernel_arg
      calls := gcl.calls ++ [DevCall.set_arg index value] }
  let gcl := set gcl st.arg_B 4 B
  let err := st.arg_B
  let gcl := set gcl st.arg_T 5 T
  let err := cl_int_or err st.arg_T
  let gcl := set gcl st.arg_C 6 C
  let err := cl_int_or err st.arg_C
  let gcl := set gcl st.arg_OC 7 OC
  let err := cl_int_or err st.arg_OC
  let gcl := set gcl st.arg_use_bias 8 use_bias
  let err := cl_int_or err st.arg_use_bias
  -- lines 27-31
  if err ≠ 0 then
    { gcl := gcl, out := out,
      printed := ["error: failed to set kernel arguments! " ++ toString err ++ "\n"],
      exited := some 1 }
  else
  -- lines 33-38
  let ts := tile_size MATMUL_TILE_SIZE
  let g0 := bt_round MATMUL_TILE_SIZE B T
  let g1 := oc_round MATMUL_TILE_SIZE OC
  let gcl := { gcl with
    matmul_out := if st.nd_range = 0 then
        kernel gcl.matmul_A gcl.matmul_B gcl.matmul_bias gcl.matmul_out gcl.kernel_arg g0 g1 ts ts
      else gcl.matmul_out
    calls := gcl.calls ++ [DevCall.nd_range g0 g1 ts ts] }
  let err := st.nd_range
  -- lines 39-43
  if err ≠ 0 then
    { gcl := gcl, out := out,
      printed := ["error: failed to execute kernel! " ++ toString err ++ "\n"],
      exited := some 1 }
  else
  -- line 44, the status of `clFinish` is discarded
  let gcl := { gcl with calls := gcl.calls ++ [DevCall.finish] }
  -- line 46
  let out' := if st.read_out = 0 then copy_floats (bytes3 B T OC) gcl.matmul_out out else out
  let gcl := { gcl with calls := gcl.calls ++ [DevCall.read_out (bytes3 B T OC)] }
  let err := st.read_out
  -- lines 47-51
  if err ≠ 0 then
    { gcl := gcl, out := out',
      printed := ["error: failed to read output array! " ++ toString err ++ "\n"],
      exited := some 1 }
  else
    { gcl := gcl, out := out', printed := [], exited := none }

end Forward

/-! ## Vocabulary for the statements about `cl_matmul_forward` -/

section ForwardVocabulary

/-- The values of the type `cl_int`. -/
def is_cl_int (x : Int) : Prop :=
  -2 ^ 31 ≤ x ∧ x < 2 ^ 31

instance (x : Int) : Decidable (is_cl_int x) :=
  inferInstanceAs (Decidable (-2 ^ 31 ≤ x ∧ x < 2 ^ 31))

/-- Every status code is a `cl_int` value. -/
def Status.valid (st : Status) : Prop :=
  is_cl_int st.write_inp ∧ is_cl_int st.write_weight ∧ is_cl_int st.write_bias
  ∧ is_cl_int st.arg_B ∧ is_cl_int st.arg_T ∧ is_cl_int st.arg_C ∧ is_cl_int st.arg_OC
  ∧ is_cl_int st.arg_use_bias ∧ is_cl_int st.nd_range ∧ is_cl_int st.finish
  ∧ is_cl_int st.read_out

instance (st : Status) : Decidable st.valid :=
  inferInstanceAs (Decidable (is_cl_int st.write_inp ∧ is_cl_int st.write_weight
    ∧ is_cl_int st.write_bias ∧ is_cl_int st.arg_B ∧ is_cl_int st.arg_T ∧ is_cl_int st.arg_C
    ∧ is_cl_int st.arg_OC ∧ is_cl_int st.arg_use_bias ∧ is_cl_int st.nd_range
    ∧ is_cl_int st.finish ∧ is_cl_int st.read_out))

/-- Every host-to-device transfer the routine performs returned `CL_SUCCESS`
(the transfer of `bias` is performed only when `bias` is present). -/
def transfers_ok (st : Status) (bias_present : Bool) : Prop :=
  st.write_inp = 0 ∧ st.write_weight = 0 ∧ (bias_present = true → st.write_bias = 0)

/-- Every one of the five kernel-argument bindings returned `CL_SUCCESS`. -/
def bindings_ok (st : Status) : Prop :=
  st.arg_B = 0 ∧ st.arg_T = 0 ∧ st.arg_C = 0 ∧ st.arg_OC = 0 ∧ st.arg_use_bias = 0

/-- The value of `err` tested on line 27. -/
def bindings_err (st : Status) : Int :=
  cl_int_or (cl_int_or (cl_int_or (cl_int_or st.arg_B st.arg_T) st.arg_C) st.arg_OC)
    st.arg_use_bias

/-- The device calls of the transfer stage (lines 10-14). -/
def transfer_calls (bias_present : Bool) (B T C OC : Nat) : List DevCall :=
  [DevCall.write_A (bytes3 B T C), DevCall.write_B (bytes2 OC C)]
    ++ (if bias_present then [DevCall.write_bias (bytes1 OC)] else [])

/-- The device calls of the argument-binding stage (lines 22-26). -/
def binding_calls (bias_present : Bool) (B T C OC : Nat) : List DevCall :=
  [DevCall.set_arg 4 B, DevCall.set_arg 5 T, DevCall.set_arg 6 C, DevCall.set_arg 7 OC,
    DevCall.set_arg 8 (if bias_present then 1 else 0)]

/-- The device call of the launch stage (line 38). -/
def launch_calls (MATMUL_TILE_SIZE B T OC : Nat) : List DevCall :=
  [DevCall.nd_range (bt_round MATMUL_TILE_SIZE B T) (oc_round MATMUL_TILE_SIZE OC)
    (tile_size MATMUL_TILE_SIZE) (tile_size MATMUL_TILE_SIZE)]

/-- The device calls of the read-back stage (lines 44-46). -/
def readback_calls (B T OC : Nat) : List DevCall :=
  [DevCall.finish, DevCall.read_out (bytes3 B T OC)]

/-- The scalar argument slots after the five bindings. -/
def bound_args (karg : Nat → Int) (bias_present : Bool) (B T C OC : Nat) : Nat → Int :=
  Function.update (Function.update (Function.update (Function.update (Function.update karg
    4 B) 5 T) 6 C) 7 OC) 8 (if bias_present then 1 else 0)

/-- The content of the device buffer `matmul_bias` after a successful transfer
stage: `bias` is copied when present, the buffer is left as it was otherwise. -/
def staged_bias {α : Type} (bias : Option (Nat → α)) (OC : Nat) (dev : Nat → α) : Nat → α :=
  match bias with
  | some bv => copy_floats (bytes1 OC) bv dev
  | none => dev

end ForwardVocabulary

/-! ## The contract of the device kernel -/

section KernelContract

variable {α : Type} [CommRing α]

/-- What `cl_matmul_forward` assumes of the device kernel `matmul_forward`, with
shape arguments `B`, `T`, `C`, `OC` bound to slots 4-7 and the flag `use_bias`
to slot 8: every grid point `(row, col)` with `row < B*T` and `col < OC` writes
`matmul_out[row*OC+col] = (use_bias ? matmul_bias[col] : 0)
  + sum over c < C of matmul_A[row*C+c] * matmul_B[col*C+c]`,
and nothing else is written. -/
def KernelSpec (kernel : Kernel α) : Prop :=
  ∀ (A Bm bias out : Nat → α) (karg : Nat → Int) (g0 g1 l0 l1 B T C OC : Nat),
    karg 4 = B → karg 5 = T → karg 6 = C → karg 7 = OC →
    (∀ row col, row < g0 → col < g1 → row < B * T → col < OC →
      kernel A Bm bias out karg g0 g1 l0 l1 (row * OC + col)
        = (if karg 8 ≠ 0 then bias col else 0)
          + ∑ c ∈ Finset.range C, A (row * C + c) * Bm (col * C + c))
    ∧ (∀ k, (∀ row col, row < B * T → col < OC → k ≠ row * OC + col) →
      kernel A Bm bias out karg g0 g1 l0 l1 k = out k)

/-- Modelled from the spec: the device kernel `matmul_forward`, whose source is
not part of `routines.h`.  Each grid point `(row, col)` inside the true bounds
computes one output element and skips the bias when the flag is `0`. -/
def ref_kernel : Kernel α :=
  fun A Bm bias out karg g0 g1 _ _ k =>
    let B := (karg 4).toNat
    let T := (karg 5).toNat
    let C := (karg 6).toNat
    let OC := (karg 7).toNat
    if OC = 0 then out k
    else if k / OC < g0 ∧ k % OC < g1 ∧ k / OC < B * T then
      (if karg 8 ≠ 0 then bias (k % OC) else 0)
        + ∑ c ∈ Finset.range C, A (k / OC * C + c) * Bm (k % OC * C + c)
    else out k

end KernelContract

/-! ## Concrete data -/

section Scenario

/-- A buffer given by the list of its first elements (zero beyond them). -/
def of_list {α : Type} [Zero α] (l : List α) : Nat → α :=
  fun k => l.getD k 0

/-- The scenario `B = T = C = OC = 2`: `inp = [1..8]`, `weight` the identity,
`dout` all ones, zero-initialised gradient buffers. -/
def scenario : Bufs Int :=
  { dinp := fun _ => 0
    dweight := fun _ => 0
    dbias := some (fun _ => 0)
    dout := fun _ => 1
    inp := of_list [1, 2, 3, 4, 5, 6, 7, 8]
    weight := of_list [1, 0, 0, 1] }

/-- The same arguments over the rationals. -/
def scenario_inp : Nat → ℚ :=
  of_list [1, 2, 3, 4, 5, 6, 7, 8]

/-- The identity weight matrix over the rationals. -/
def scenario_weight : Nat → ℚ :=
  of_list [1, 0, 0, 1]

/-- The scenario over the rationals. -/
def scenario_rat : Bufs ℚ :=
  { dinp := fun _ => 0
    dweight := fun _ => 0
    dbias := some (fun _ => 0)
    dout := fun _ => 1
    inp := scenario_inp
    weight := scenario_weight }

/-- A device context with zeroed buffers, no bound argument and no call issued. -/
def fresh_context : GPT2_CL Int :=
  { matmul_A := fun _ => 0
    matmul_B := fun _ => 0
    matmul_bias := fun _ => 0
    matmul_out := fun _ => 0
    kernel_arg := fun _ => 0
    calls := [] }

/-- Every device call returns `CL_SUCCESS`. -/
def all_success : Status :=
  { write_inp := 0, write_weight := 0, write_bias := 0, arg_B := 0, arg_T := 0, arg_C := 0,
    arg_OC := 0, arg_use_bias := 0, nd_range := 0, finish := 0, read_out := 0 }

/-- The binding of `T` returns `CL_INVALID_VALUE` (-30), every other call `CL_SUCCESS`. -/
def binding_fails : Status :=
  { all_success with arg_T := -30 }

end Scenario

/-! # Theorems -/

section Pointwise
variable {α : Type}

theorem Bufs.ext_fields {m m' : Bufs α} (h1 : m.dinp = m'.dinp) (h2 : m.dweight = m'.dweight)
    (h3 : m.dbias = m'.dbias) (h4 : m.dout = m'.dout) (h5 : m.inp = m'.inp)
    (h6 : m.weight = m'.weight) : m = m' := by
  cases m; cases m'; simp_all

theorem pointwise_id (m : Bufs α) :
    m.pointwise (fun _ v => v) (fun _ v => v) (fun _ v => v) = m := by
  apply Bufs.ext_fields <;> simp [Bufs.pointwise]

theorem pointwise_pointwise (m : Bufs α) (F G H F' G' H' : Nat → α → α) :
    (m.pointwise F G H).pointwise F' G' H'
      = m.pointwise (fun k v => F' k (F k v)) (fun k v => G' k (G k v)) (fun k v => H' k (H k v)) := by
  apply Bufs.ext_fields <;> simp [Bufs.pointwise, Option.map_map, Function.comp_def]

/-- A loop whose body acts cell-wise (with cell functions that may depend on
the read-only buffers) acts cell-wise, by the loop of the cell functions. -/
theorem forLoop_pointwise (body : Nat → Bufs α → Bufs α)
    (F G H : (Nat → α) → (Nat → α) → (Nat → α) → Nat → Nat → α → α)
    (hbody : ∀ j m, body j m = m.pointwise (F m.dout m.inp m.weight j)
      (G m.dout m.inp m.weight j) (H m.dout m.inp m.weight j))
    (n : Nat) (m : Bufs α) :
    forLoop n body m = m.pointwise
      (fun k v => forLoop n (fun j v => F m.dout m.inp m.weight j k v) v)
      (fun k v => forLoop n (fun j v => G m.dout m.inp m.weight j k v) v)
      (fun k v => forLoop n (fun j v => H m.dout m.inp m.weight j k v) v) := by
  induction n with
  | zero => simp [forLoop, pointwise_id]
  | succ n ih =>
    simp only [forLoop]
    rw [ih, hbody, pointwise_pointwise]
    rfl

/-- The same for a list of iterations executed in the order of the list. -/
theorem foldl_pointwise {ι : Type} (body : ι → Bufs α → Bufs α)
    (F G H : (Nat → α) → (Nat → α) → (Nat → α) → ι → Nat → α → α)
    (hbody : ∀ j m, body j m = m.pointwise (F m.dout m.inp m.weight j)
      (G m.dout m.inp m.weight j) (H m.dout m.inp m.weight j))
    (l : List ι) (m : Bufs α) :
    l.foldl (fun m j => body j m) m = m.pointwise
      (fun k v => l.foldl (fun v j => F m.dout m.inp m.weight j k v) v)
      (fun k v => l.foldl (fun v j => G m.dout m.inp m.weight j k v) v)
      (fun k v => l.foldl (fun v j => H m.dout m.inp m.weight j k v) v) := by
  induction l generalizing m with
  | nil => simp [pointwise_id]
  | cons j l ih =>
    simp only [List.foldl_cons]
    rw [ih, hbody, pointwise_pointwise]
    rfl

/-! ### Loops over a single cell -/

theorem forLoop_const {σ : Type} (n : Nat) (s : σ) : forLoop n (fun _ s => s) s = s := by
  induction n with
  | zero => rfl
  | succ n ih => simpa [forLoop] using ih

/-- A loop none of whose iterations changes the value leaves it unchanged. -/
theorem forLoop_inactive {σ : Type} (n : Nat) (g : Nat → σ → σ) (s : σ)
    (h : ∀ j, j < n → ∀ w, g j w = w) : forLoop n g s = s := by
  induction n with
  | zero => rfl
  | succ n ih =>
    simp only [forLoop]
    rw [ih (fun j hj => h j (Nat.lt_succ_of_lt hj)), h n (Nat.lt_succ_self n)]

/-- A loop in which only iteration `j0` changes the value is that iteration. -/
theorem forLoop_unique {σ : Type} (n : Nat) (g : Nat → σ → σ) (s : σ) (j0 : Nat) (hj0 : j0 < n)
    (h : ∀ j, j < n → j ≠ j0 → ∀ w, g j w = w) : forLoop n g s = g j0 s := by
  induction n with
  | zero => omega
  | succ n ih =>
    simp only [forLoop]
    by_cases hn : j0 = n
    · subst hn
      rw [forLoop_inactive j0 g s (fun j hj => h j (Nat.lt_succ_of_lt hj) (by omega))]
    · rw [h n (Nat.lt_succ_self n) (fun e => hn e.symm)]
      exact ih (by omega) (fun j hj => h j (Nat.lt_succ_of_lt hj))

/-- The loop `for i < n: if (k == p + i) v = A i v` on one cell. -/
theorem forLoop_hit {σ : Type} (n p k : Nat) (A : Nat → σ → σ) (s : σ) :
    forLoop n (fun i v => if k = p + i then A i v else v) s
      = if p ≤ k ∧ k < p + n then A (k - p) s else s := by
  by_cases hk : p ≤ k ∧ k < p + n
  · rw [if_pos hk, forLoop_unique n _ s (k - p) (by omega)]
    · rw [if_pos (by omega)]
    · intro j _ hj w
      rw [if_neg (by omega)]
  · rw [if_neg hk, forLoop_inactive]
    intro j hj w
    rw [if_neg (by omega)]

/-- A loop whose body is guarded by a loop-invariant condition. -/
theorem forLoop_guard {σ : Type} (n : Nat) (c : Prop) [Decidable c] (A : Nat → σ → σ) (s : σ) :
    forLoop n (fun j v => if c then A j v else v) s = if c then forLoop n A s else s := by
  by_cases hc : c
  · simp [hc]
  · simp [hc, forLoop_const]

end Pointwise

section BackwardCells
variable {α : Type} [Add α] [Mul α]

theorem pass1_store_eq (p q : Nat) (d : α) (i : Nat) (m : Bufs α) :
    pass1_store p q d i m = m.pointwise
      (fun k v => if k = p + i then v + m.weight (q + i) * d else v) (fun _ v => v) (fun _ v => v) := by
  apply Bufs.ext_fields <;> simp [pass1_store, Bufs.pointwise]
  funext k
  by_cases hk : k = p + i
  · subst hk; simp
  · simp [hk, Function.update_noteq hk]

/-- One iteration of the first pass, cell by cell. -/
theorem pass1_iter_eq (T C OC b t : Nat) (m : Bufs α) :
    pass1_iter_ideal T C OC b t m = m.pointwise (pass1_cell T C OC m.dout m.weight b t)
      (fun _ v => v) (fun _ v => v) := by
  unfold pass1_iter_ideal
  simp only
  rw [forLoop_pointwise _
    (fun dout _ weight o k v => if b * T * C + t * C ≤ k ∧ k < b * T * C + t * C + C then
      v + weight (o * C + (k - (b * T * C + t * C))) * dout (b * T * OC + t * OC + o) else v)
    (fun _ _ _ _ _ v => v) (fun _ _ _ _ _ v => v)]
  · simp only [forLoop_const, forLoop_guard]
    rfl
  · intro o m
    rw [forLoop_pointwise _
      (fun _ _ weight i k v => if k = b * T * C + t * C + i then
        v + weight (o * C + i) * m.dout (b * T * OC + t * OC + o) else v)
      (fun _ _ _ _ _ v => v) (fun _ _ _ _ _ v => v)]
    · simp only [forLoop_const, forLoop_hit]
    · intro i m'
      rw [pass1_store_eq]

omit [Mul α] in
theorem pass2_bias_eq (o : Nat) (d : α) (m : Bufs α) :
    pass2_bias o d m = m.pointwise (fun _ v => v) (fun _ v => v)
      (fun k v => if k = o then v + d else v) := by
  unfold pass2_bias
  cases hb : m.dbias with
  | none => apply Bufs.ext_fields <;> simp [Bufs.pointwise, hb]
  | some db =>
    apply Bufs.ext_fields <;> simp [Bufs.pointwise, hb]
    funext k
    by_cases hk : k = o
    · subst hk; simp
    · simp [hk, Function.update_noteq hk]

theorem pass2_store_eq (p q : Nat) (d : α) (i : Nat) (m : Bufs α) :
    pass2_store p q d i m = m.pointwise (fun _ v => v)
      (fun k v => if k = p + i then v + m.inp (q + i) * d else v) (fun _ v => v) := by
  apply Bufs.ext_fields <;> simp [pass2_store, Bufs.pointwise]
  funext k
  by_cases hk : k = p + i
  · subst hk; simp
  · simp [hk, Function.update_noteq hk]

/-- One `(b, t)` step of iteration `o` of the second pass, cell by cell. -/
theorem pass2_step_eq (T C OC o b t : Nat) (m : Bufs α) :
    pass2_step_ideal T C OC o b t m = m.pointwise (fun _ v => v)
      (fun k v => if o * C ≤ k ∧ k < o * C + C then
        v + m.inp (b * T * C + t * C + (k - o * C)) * m.dout (b * T * OC + t * OC + o) else v)
      (fun k v => if k = o then v + m.dout (b * T * OC + t * OC + o) else v) := by
  unfold pass2_step_ideal
  simp only
  rw [forLoop_pointwise _ (fun _ _ _ _ _ v => v)
      (fun _ inp _ i k v => if k = o * C + i then
        v + inp (b * T * C + t * C + i) * m.dout (b * T * OC + t * OC + o) else v)
      (fun _ _ _ _ _ v => v)]
  · rw [pass2_bias_eq, pointwise_pointwise]
    simp only [forLoop_const, forLoop_hit]
    rfl
  · intro i m'
    rw [pass2_store_eq]

/-- One iteration of the second pass, cell by cell. -/
theorem pass2_iter_eq (B T C OC o : Nat) (m : Bufs α) :
    pass2_iter_ideal B T C OC o m = m.pointwise (fun _ v => v)
      (pass2_cell B T C OC m.dout m.inp o) (pass2_bcell B T OC m.dout o) := by
  unfold pass2_iter_ideal
  rw [forLoop_pointwise _ (fun _ _ _ _ _ v => v)
    (fun dout inp _ b k v => if o * C ≤ k ∧ k < o * C + C then
      accum T (fun t => inp (b * T * C + t * C + (k - o * C)) * dout (b * T * OC + t * OC + o)) v
      else v)
    (fun dout _ _ b k v => if k = o then
      accum T (fun t => dout (b * T * OC + t * OC + o)) v else v)]
  · simp only [forLoop_const, forLoop_guard]
    rfl
  · intro b m
    rw [forLoop_pointwise _ (fun _ _ _ _ _ v => v)
      (fun dout inp _ t k v => if o * C ≤ k ∧ k < o * C + C then
        v + inp (b * T * C + t * C + (k - o * C)) * dout (b * T * OC + t * OC + o) else v)
      (fun dout _ _ t k v => if k = o then v + dout (b * T * OC + t * OC + o) else v)]
    · simp only [forLoop_const, forLoop_guard]
      rfl
    · intro t m'
      rw [pass2_step_eq]

/-- The first pass, cell by cell. -/
theorem pass1_eq (B T C OC : Nat) (m : Bufs α) :
    pass1_ideal B T C OC m = m.pointwise
      (fun k v => forLoop B (fun b v =>
        forLoop T (fun t v => pass1_cell T C OC m.dout m.weight b t k v) v) v)
      (fun _ v => v) (fun _ v => v) := by
  unfold pass1_ideal
  rw [forLoop_pointwise _
    (fun dout _ weight b k v => forLoop T (fun t v => pass1_cell T C OC dout weight b t k v) v)
    (fun _ _ _ _ _ v => v) (fun _ _ _ _ _ v => v)]
  · simp only [forLoop_const]
  · intro b m
    rw [forLoop_pointwise _
      (fun dout _ weight t k v => pass1_cell T C OC dout weight b t k v)
      (fun _ _ _ _ _ v => v) (fun _ _ _ _ _ v => v)]
    · simp only [forLoop_const]
    · intro t m'
      rw [pass1_iter_eq]

/-- The second pass, cell by cell. -/
theorem pass2_eq (B T C OC : Nat) (m : Bufs α) :
    pass2_ideal B T C OC m = m.pointwise (fun _ v => v)
      (fun k v => forLoop OC (fun o v => pass2_cell B T C OC m.dout m.inp o k v) v)
      (fun k v => forLoop OC (fun o v => pass2_bcell B T OC m.dout o k v) v) := by
  unfold pass2_ideal
  rw [forLoop_pointwise _ (fun _ _ _ _ _ v => v)
    (fun dout inp _ o k v => pass2_cell B T C OC dout inp o k v)
    (fun dout _ _ o k v => pass2_bcell B T OC dout o k v)]
  · simp only [forLoop_const]
  · intro o m'
    rw [pass2_iter_eq]

end BackwardCells

/-! ### Index arithmetic -/

/-- Offsets `b*T*C + t*C` of distinct `(b, t)` slices are at least `C` apart:
a cell of slice `(b0, t0)` lies in slice `(b, t)` only if `(b, t) = (b0, t0)`. -/
theorem slice_unique (T C b t b0 t0 i : Nat) (ht : t < T) (ht0 : t0 < T) (hi : i < C)
    (h1 : b * T * C + t * C ≤ b0 * T * C + t0 * C + i)
    (h2 : b0 * T * C + t0 * C + i < b * T * C + t * C + C) : b = b0 ∧ t = t0 := by
  have e1 : b * T * C + t * C = (b * T + t) * C := by ring
  have e2 : b0 * T * C + t0 * C = (b0 * T + t0) * C := by ring
  rw [e1, e2] at h1 h2
  have hn : b * T + t = b0 * T + t0 := by
    rcases Nat.lt_trichotomy (b * T + t) (b0 * T + t0) with h | h | h
    · have := Nat.mul_le_mul_right C (Nat.succ_le_of_lt h)
      rw [Nat.succ_mul] at this
      omega
    · exact h
    · have := Nat.mul_le_mul_right C (Nat.succ_le_of_lt h)
      rw [Nat.succ_mul] at this
      omega
  have hb : b = b0 := by
    rcases Nat.lt_trichotomy b b0 with h | h | h
    · have := Nat.mul_le_mul_right T (Nat.succ_le_of_lt h)
      rw [Nat.succ_mul] at this
      omega
    · exact h
    · have := Nat.mul_le_mul_right T (Nat.succ_le_of_lt h)
      rw [Nat.succ_mul] at this
      omega
  subst hb
  exact ⟨rfl, by omega⟩

/-- Rows `[o*C, o*C + C)` of distinct `o` are disjoint. -/
theorem row_unique (C o o0 i : Nat) (hi : i < C) (h1 : o * C ≤ o0 * C + i)
    (h2 : o0 * C + i < o * C + C) : o = o0 := by
  rcases Nat.lt_trichotomy o o0 with h | h | h
  · have := Nat.mul_le_mul_right C (Nat.succ_le_of_lt h)
    rw [Nat.succ_mul] at this
    omega
  · exact h
  · have := Nat.mul_le_mul_right C (Nat.succ_le_of_lt h)
    rw [Nat.succ_mul] at this
    omega

section BackwardValues
variable {α : Type} [Add α] [Mul α]

/-- What the sequential first pass leaves in cell `(b, t, i)` of `dinp`. -/
theorem pass1_cells_at (B T C OC : Nat) (dout weight : Nat → α) (b t i : Nat)
    (hb : b < B) (ht : t < T) (hi : i < C) (v : α) :
    forLoop B (fun b' v => forLoop T (fun t' v =>
        pass1_cell T C OC dout weight b' t' (b * T * C + t * C + i) v) v) v
      = accum OC (fun o => weight (o * C + i) * dout (b * T * OC + t * OC + o)) v := by
  rw [forLoop_unique B _ v b hb]
  · rw [forLoop_unique T _ v t ht]
    · unfold pass1_cell
      rw [if_pos (by omega)]
      simp
    · intro t' ht' hne w
      unfold pass1_cell
      rw [if_neg]
      rintro ⟨h1, h2⟩
      exact hne (slice_unique T C b t' b t i ht' ht hi h1 h2).2
  · intro b' _ hne w
    apply forLoop_inactive
    intro t' ht' w'
    unfold pass1_cell
    rw [if_neg]
    rintro ⟨h1, h2⟩
    exact hne (slice_unique T C b' t' b t i ht' ht hi h1 h2).1

/-- What the sequential second pass leaves in cell `(o, i)` of `dweight`. -/
theorem pass2_cells_at (B T C OC : Nat) (dout inp : Nat → α) (o i : Nat)
    (ho : o < OC) (hi : i < C) (v : α) :
    forLoop OC (fun o' v => pass2_cell B T C OC dout inp o' (o * C + i) v) v
      = forLoop B (fun b v =>
          accum T (fun t => inp (b * T * C + t * C + i) * dout (b * T * OC + t * OC + o)) v) v := by
  rw [forLoop_unique OC _ v o ho]
  · unfold pass2_cell
    rw [if_pos (by omega)]
    simp
  · intro o' _ hne w
    unfold pass2_cell
    rw [if_neg]
    rintro ⟨h1, h2⟩
    exact hne (row_unique C o' o i hi h1 h2)

omit [Mul α] in
/-- What the sequential second pass leaves in cell `o` of `dbias`. -/
theorem pass2_bcells_at (B T OC : Nat) (dout : Nat → α) (o : Nat) (ho : o < OC) (v : α) :
    forLoop OC (fun o' v => pass2_bcell B T OC dout o' o v) v
      = forLoop B (fun b v => accum T (fun t => dout (b * T * OC + t * OC + o)) v) v := by
  rw [forLoop_unique OC _ v o ho]
  · unfold pass2_bcell
    rw [if_pos rfl]
  · intro o' _ hne w
    unfold pass2_bcell
    rw [if_neg (fun e => hne e.symm)]

end BackwardValues

section Sums
variable {α : Type} [CommRing α]

theorem accum_eq_sum (n : Nat) (f : Nat → α) (v : α) :
    accum n f v = v + ∑ j ∈ Finset.range n, f j := by
  unfold accum
  induction n with
  | zero => simp [forLoop]
  | succ n ih =>
    simp only [forLoop]
    rw [ih, Finset.sum_range_succ, add_assoc]

theorem accum2_eq_sum (B T : Nat) (f : Nat → Nat → α) (v : α) :
    forLoop B (fun b v => accum T (f b) v) v
      = v + ∑ b ∈ Finset.range B, ∑ t ∈ Finset.range T, f b t := by
  induction B with
  | zero => simp [forLoop]
  | succ n ih =>
    simp only [forLoop]
    rw [ih, accum_eq_sum, Finset.sum_range_succ, add_assoc]

end Sums

section CellValues
variable {α : Type} [CommRing α]

/-- The content of cell `(b, t, i)` of `dinp` after both passes with exact offsets. -/
theorem dinp_after_backward (B T C OC : Nat) (m : Bufs α) (b t i : Nat)
    (hb : b < B) (ht : t < T) (hi : i < C) :
    (backward_ideal B T C OC m).dinp ((b * T + t) * C + i)
      = m.dinp ((b * T + t) * C + i)
        + ∑ o ∈ Finset.range OC, m.weight (o * C + i) * m.dout ((b * T + t) * OC + o) := by
  have e1 : (b * T + t) * C = b * T * C + t * C := by ring
  have e2 : (b * T + t) * OC = b * T * OC + t * OC := by ring
  rw [e1, e2]
  unfold backward_ideal
  rw [pass2_eq, pass1_eq]
  simp only [Bufs.pointwise]
  rw [pass1_cells_at B T C OC _ _ b t i hb ht hi, accum_eq_sum]

/-- The content of cell `(o, i)` of `dweight` after both passes with exact offsets. -/
theorem dweight_after_backward (B T C OC : Nat) (m : Bufs α) (o i : Nat)
    (ho : o < OC) (hi : i < C) :
    (backward_ideal B T C OC m).dweight (o * C + i)
      = m.dweight (o * C + i)
        + ∑ b ∈ Finset.range B, ∑ t ∈ Finset.range T,
            m.inp ((b * T + t) * C + i) * m.dout ((b * T + t) * OC + o) := by
  have e1 : ∀ b t, (b * T + t) * C = b * T * C + t * C := fun b t => by ring
  have e2 : ∀ b t, (b * T + t) * OC = b * T * OC + t * OC := fun b t => by ring
  simp only [e1, e2]
  unfold backward_ideal
  rw [pass2_eq, pass1_eq]
  simp only [Bufs.pointwise]
  rw [pass2_cells_at B T C OC _ _ o i ho hi, accum2_eq_sum]

/-- The content of `dbias`, when present, after both passes with exact offsets. -/
theorem dbias_after_backward (B T C OC : Nat) (m : Bufs α) (db : Nat → α)
    (hdb : m.dbias = some db) :
    ∃ db', (backward_ideal B T C OC m).dbias = some db' ∧
      ∀ o, o < OC → db' o = db o
        + ∑ b ∈ Finset.range B, ∑ t ∈ Finset.range T, m.dout ((b * T + t) * OC + o) := by
  have e2 : ∀ b t, (b * T + t) * OC = b * T * OC + t * OC := fun b t => by ring
  simp only [e2]
  unfold backward_ideal
  rw [pass2_eq, pass1_eq]
  simp only [Bufs.pointwise, hdb, Option.map_some']
  refine ⟨_, rfl, ?_⟩
  intro o ho
  rw [pass2_bcells_at B T OC _ o ho, accum2_eq_sum]

end CellValues

section Frame
variable {α : Type} [Add α] [Mul α]

/-- With exact offsets: a call with `dbias = NULL` leaves `dbias = NULL` and the
same `dinp` and `dweight` as the call with any `dbias` buffer `d` present; both
leave `dout`, `inp` and `weight` unchanged. -/
theorem ideal_dbias_absent (B T C OC : Nat) (m : Bufs α) (d : Nat → α) :
    (backward_ideal B T C OC { m with dbias := none }).dbias = none
    ∧ (backward_ideal B T C OC { m with dbias := none }).dinp
        = (backward_ideal B T C OC { m with dbias := some d }).dinp
    ∧ (backward_ideal B T C OC { m with dbias := none }).dweight
        = (backward_ideal B T C OC { m with dbias := some d }).dweight
    ∧ ((backward_ideal B T C OC { m with dbias := none }).dout = m.dout
      ∧ (backward_ideal B T C OC { m with dbias := none }).inp = m.inp
      ∧ (backward_ideal B T C OC { m with dbias := none }).weight = m.weight)
    ∧ ((backward_ideal B T C OC { m with dbias := some d }).dout = m.dout
      ∧ (backward_ideal B T C OC { m with dbias := some d }).inp = m.inp
      ∧ (backward_ideal B T C OC { m with dbias := some d }).weight = m.weight) := by
  unfold backward_ideal
  simp only [pass2_eq, pass1_eq, Bufs.pointwise, Option.map_none', and_self]

end Frame

section Accumulation
variable {α : Type} [CommRing α]

theorem forLoop_translate (n : Nat) (g : Nat → α → α) (h : ∀ j w, g j w = w + g j 0) (v : α) :
    forLoop n g v = v + forLoop n g 0 := by
  induction n with
  | zero => simp [forLoop]
  | succ n ih =>
    simp only [forLoop]
    rw [h n (forLoop n g v), h n (forLoop n g 0), ih, add_assoc]

theorem pass1_cell_translate (T C OC : Nat) (dout weight : Nat → α) (b t k : Nat) (v : α) :
    pass1_cell T C OC dout weight b t k v = v + pass1_cell T C OC dout weight b t k 0 := by
  unfold pass1_cell
  split
  · rw [accum_eq_sum, accum_eq_sum, zero_add]
  · rw [add_zero]

theorem pass2_cell_translate (B T C OC : Nat) (dout inp : Nat → α) (o k : Nat) (v : α) :
    pass2_cell B T C OC dout inp o k v = v + pass2_cell B T C OC dout inp o k 0 := by
  unfold pass2_cell
  split
  · rw [accum2_eq_sum, accum2_eq_sum, zero_add]
  · rw [add_zero]

theorem pass2_bcell_translate (B T OC : Nat) (dout : Nat → α) (o k : Nat) (v : α) :
    pass2_bcell B T OC dout o k v = v + pass2_bcell B T OC dout o k 0 := by
  unfold pass2_bcell
  split
  · rw [accum2_eq_sum, accum2_eq_sum, zero_add]
  · rw [add_zero]

/-- With exact offsets a single call adds, cell by cell, the gradient it
produces from zero-initialised buffers to the content the buffers had. -/
theorem backward_additive (B T C OC : Nat) (m : Bufs α) :
    (backward_ideal B T C OC m).dinp
        = m.dinp + (backward_ideal B T C OC m.zeroGrads).dinp
    ∧ (backward_ideal B T C OC m).dweight
        = m.dweight + (backward_ideal B T C OC m.zeroGrads).dweight
    ∧ (backward_ideal B T C OC m).dbias
        = addOpt m.dbias (backward_ideal B T C OC m.zeroGrads).dbias := by
  unfold backward_ideal
  simp only [pass2_eq, pass1_eq, Bufs.pointwise, Bufs.zeroGrads]
  refine ⟨?_, ?_, ?_⟩
  · funext k
    simp only [Pi.add_apply]
    exact forLoop_translate B _ (fun b w => forLoop_translate T _
      (fun t w => pass1_cell_translate T C OC _ _ b t k w) w) _
  · funext k
    simp only [Pi.add_apply]
    exact forLoop_translate OC _ (fun o w => pass2_cell_translate B T C OC _ _ o k w) _
  · cases hb : m.dbias with
    | none => simp [addOpt]
    | some db =>
      simp only [Option.map_some', addOpt, Option.some.injEq]
      funext k
      exact forLoop_translate OC _ (fun o w => pass2_bcell_translate B T OC _ o k w) _

theorem backward_zeroGrads (B T C OC : Nat) (m : Bufs α) :
    (backward_ideal B T C OC m).zeroGrads = m.zeroGrads := by
  unfold backward_ideal
  simp only [pass2_eq, pass1_eq, Bufs.pointwise, Bufs.zeroGrads, Option.map_map]
  rfl

/-- With exact offsets: two successive calls leave `G0 + g1 + g2`, one call
leaves `G0 + g1`, and two identical calls from zero buffers leave twice the
single-call gradient. -/
theorem ideal_accumulates (B T C OC : Nat) (G0 : Bufs α)
    (dout1 inp1 weight1 dout2 inp2 weight2 : Nat → α) :
    ((ideal_on B T C OC (ideal_on B T C OC G0 dout1 inp1 weight1) dout2 inp2 weight2).dinp
        = G0.dinp + (ideal_gradient_of B T C OC G0 dout1 inp1 weight1).dinp
            + (ideal_gradient_of B T C OC G0 dout2 inp2 weight2).dinp
      ∧ (ideal_on B T C OC (ideal_on B T C OC G0 dout1 inp1 weight1)
            dout2 inp2 weight2).dweight
        = G0.dweight + (ideal_gradient_of B T C OC G0 dout1 inp1 weight1).dweight
            + (ideal_gradient_of B T C OC G0 dout2 inp2 weight2).dweight
      ∧ (ideal_on B T C OC (ideal_on B T C OC G0 dout1 inp1 weight1)
            dout2 inp2 weight2).dbias
        = addOpt (addOpt G0.dbias (ideal_gradient_of B T C OC G0 dout1 inp1 weight1).dbias)
            (ideal_gradient_of B T C OC G0 dout2 inp2 weight2).dbias)
    ∧ ((ideal_on B T C OC G0 dout1 inp1 weight1).dinp
        = G0.dinp + (ideal_gradient_of B T C OC G0 dout1 inp1 weight1).dinp
      ∧ (ideal_on B T C OC G0 dout1 inp1 weight1).dweight
        = G0.dweight + (ideal_gradient_of B T C OC G0 dout1 inp1 weight1).dweight
      ∧ (ideal_on B T C OC G0 dout1 inp1 weight1).dbias
        = addOpt G0.dbias (ideal_gradient_of B T C OC G0 dout1 inp1 weight1).dbias)
    ∧ ((ideal_on B T C OC (ideal_gradient_of B T C OC G0 dout1 inp1 weight1)
            dout1 inp1 weight1).dinp
        = 2 • (ideal_gradient_of B T C OC G0 dout1 inp1 weight1).dinp
      ∧ (ideal_on B T C OC (ideal_gradient_of B T C OC G0 dout1 inp1 weight1)
            dout1 inp1 weight1).dweight
        = 2 • (ideal_gradient_of B T C OC G0 dout1 inp1 weight1).dweight
      ∧ (ideal_on B T C OC (ideal_gradient_of B T C OC G0 dout1 inp1 weight1)
            dout1 inp1 weight1).dbias
        = addOpt (ideal_gradient_of B T C OC G0 dout1 inp1 weight1).dbias
            (ideal_gradient_of B T C OC G0 dout1 inp1 weight1).dbias) := by
  have hz : ∀ (m : Bufs α) (d i w : Nat → α),
      ((backward_ideal B T C OC m).withArgs d i w).zeroGrads = (m.withArgs d i w).zeroGrads := by
    intro m d i w
    have := backward_zeroGrads B T C OC m
    simp only [Bufs.zeroGrads, Bufs.withArgs, Bufs.mk.injEq] at this ⊢
    simp [this.2.2.1]
  have hzz : ∀ (m : Bufs α), m.zeroGrads.zeroGrads = m.zeroGrads := by
    intro m
    simp [Bufs.zeroGrads, Option.map_map, Function.comp_def]
  have hsame : ∀ (m : Bufs α),
      (backward_ideal B T C OC m).withArgs m.dout m.inp m.weight
        = backward_ideal B T C OC m := by
    intro m
    unfold backward_ideal
    simp only [pass2_eq, pass1_eq, Bufs.pointwise, Bufs.withArgs]
  have h1 := backward_additive B T C OC (G0.withArgs dout1 inp1 weight1)
  have h2 := backward_additive B T C OC
    ((backward_ideal B T C OC (G0.withArgs dout1 inp1 weight1)).withArgs dout2 inp2 weight2)
  have h3 := backward_additive B T C OC
    (backward_ideal B T C OC (G0.withArgs dout1 inp1 weight1).zeroGrads)
  rw [hz] at h2
  rw [backward_zeroGrads, hzz] at h3
  have hargs : (backward_ideal B T C OC (G0.withArgs dout1 inp1 weight1).zeroGrads).withArgs
      dout1 inp1 weight1
      = backward_ideal B T C OC (G0.withArgs dout1 inp1 weight1).zeroGrads := by
    have := hsame (G0.withArgs dout1 inp1 weight1).zeroGrads
    simpa [Bufs.zeroGrads, Bufs.withArgs] using this
  unfold ideal_on ideal_gradient_of
  rw [hargs]
  refine ⟨⟨?_, ?_, ?_⟩, ⟨?_, ?_, ?_⟩, ⟨?_, ?_, ?_⟩⟩
  · rw [h2.1]
    change (backward_ideal B T C OC (G0.withArgs dout1 inp1 weight1)).dinp + _ = _
    rw [h1.1]; rfl
  · rw [h2.2.1]
    change (backward_ideal B T C OC (G0.withArgs dout1 inp1 weight1)).dweight + _ = _
    rw [h1.2.1]; rfl
  · rw [h2.2.2]
    change addOpt (backward_ideal B T C OC (G0.withArgs dout1 inp1 weight1)).dbias _ = _
    rw [h1.2.2]; rfl
  · rw [h1.1]; rfl
  · rw [h1.2.1]; rfl
  · rw [h1.2.2]; rfl
  · rw [h3.1, two_smul]
  · rw [h3.2.1, two_smul]
  · rw [h3.2.2]

end Accumulation

/-! ### Schedules -/

section Schedules
variable {α : Type} [Add α] [Mul α]

theorem forLoop_eq_foldl {σ : Type} (n : Nat) (body : Nat → σ → σ) (s : σ) :
    forLoop n body s = (List.range n).foldl (fun s j => body j s) s := by
  induction n with
  | zero => rfl
  | succ n ih => simp [forLoop, List.range_succ, List.foldl_append, ih]

theorem foldl_product {σ : Type} (f : Nat → Nat → σ → σ) (l1 l2 : List Nat) (s : σ) :
    (List.product l1 l2).foldl (fun s p => f p.1 p.2 s) s
      = l1.foldl (fun s a => l2.foldl (fun s b => f a b s) s) s := by
  induction l1 generalizing s with
  | nil => rfl
  | cons a l1 ih =>
    have : List.product (a :: l1) l2 = l2.map (Prod.mk a) ++ List.product l1 l2 :=
      List.product_cons a l1 l2
    rw [this, List.foldl_append, List.foldl_map, ih]
    rfl

/-- The sequential first pass is the schedule `pass1_iters`. -/
theorem pass1_sched_iters (B T C OC : Nat) (m : Bufs α) :
    pass1_sched_ideal T C OC (pass1_iters B T) m = pass1_ideal B T C OC m := by
  unfold pass1_sched_ideal pass1_iters pass1_ideal
  rw [foldl_product (fun b t m => pass1_iter_ideal T C OC b t m), forLoop_eq_foldl]
  congr 1
  funext m b
  rw [forLoop_eq_foldl]

/-- The sequential second pass is the schedule `pass2_iters`. -/
theorem pass2_sched_iters (B T C OC : Nat) (m : Bufs α) :
    pass2_sched_ideal B T C OC (pass2_iters OC) m = pass2_ideal B T C OC m := by
  unfold pass2_sched_ideal pass2_iters pass2_ideal
  rw [forLoop_eq_foldl]

theorem slice_disjoint (T C b t b' t' k : Nat) (ht : t < T) (ht' : t' < T)
    (hne : (b, t) ≠ (b', t')) :
    ¬ (((b * T + t) * C ≤ k ∧ k < (b * T + t) * C + C)
      ∧ ((b' * T + t') * C ≤ k ∧ k < (b' * T + t') * C + C)) := by
  rintro ⟨⟨h1, h2⟩, ⟨h3, h4⟩⟩
  have e1 : (b * T + t) * C = b * T * C + t * C := by ring
  have e2 : (b' * T + t') * C = b' * T * C + t' * C := by ring
  rw [e1] at h1 h2
  rw [e2] at h3 h4
  have hk : k = b' * T * C + t' * C + (k - (b' * T * C + t' * C)) := by omega
  have := slice_unique T C b t b' t' (k - (b' * T * C + t' * C)) ht ht' (by omega)
    (by omega) (by omega)
  exact hne (by rw [this.1, this.2])

theorem row_disjoint (C o o' k : Nat) (hne : o ≠ o') :
    ¬ ((o * C ≤ k ∧ k < o * C + C) ∧ (o' * C ≤ k ∧ k < o' * C + C)) := by
  rintro ⟨⟨h1, h2⟩, ⟨h3, h4⟩⟩
  exact hne (row_unique C o o' (k - o' * C) (by omega) (by omega) (by omega))

/-- Two iterations of the first pass commute. -/
theorem pass1_iter_comm (T C OC b t b' t' : Nat) (ht : t < T) (ht' : t' < T) (m : Bufs α) :
    pass1_iter_ideal T C OC b' t' (pass1_iter_ideal T C OC b t m)
      = pass1_iter_ideal T C OC b t (pass1_iter_ideal T C OC b' t' m) := by
  by_cases hne : (b, t) = (b', t')
  · cases hne; rfl
  · simp only [pass1_iter_eq, pointwise_pointwise]
    simp only [Bufs.pointwise]
    congr 1
    funext k
    have hd := slice_disjoint T C b t b' t' k ht ht' hne
    have e1 : (b * T + t) * C = b * T * C + t * C := by ring
    have e2 : (b' * T + t') * C = b' * T * C + t' * C := by ring
    rw [e1, e2] at hd
    unfold pass1_cell
    by_cases h1 : b * T * C + t * C ≤ k ∧ k < b * T * C + t * C + C
    · have h2 : ¬ (b' * T * C + t' * C ≤ k ∧ k < b' * T * C + t' * C + C) :=
        fun h2 => hd ⟨h1, h2⟩
      simp only [h2, if_false]
    · simp only [h1, if_false]

/-- Two iterations of the second pass commute. -/
theorem pass2_iter_comm (B T C OC o o' : Nat) (m : Bufs α) :
    pass2_iter_ideal B T C OC o' (pass2_iter_ideal B T C OC o m)
      = pass2_iter_ideal B T C OC o (pass2_iter_ideal B T C OC o' m) := by
  by_cases hne : o = o'
  · subst hne; rfl
  · simp only [pass2_iter_eq, pointwise_pointwise]
    simp only [Bufs.pointwise]
    congr 1
    · funext k
      have hd := row_disjoint C o o' k hne
      unfold pass2_cell
      by_cases h1 : o * C ≤ k ∧ k < o * C + C
      · have h2 : ¬ (o' * C ≤ k ∧ k < o' * C + C) := fun h2 => hd ⟨h1, h2⟩
        simp only [h2, if_false]
      · simp only [h1, if_false]
    · congr 1
      funext db k
      unfold pass2_bcell
      by_cases h1 : k = o
      · have h2 : ¬ k = o' := fun h2 => hne (h1.symm.trans h2)
        simp only [h2, if_false]
      · simp only [h1, if_false]

/-- Any permutation of the iterations of the first pass gives the sequential result. -/
theorem pass1_sched_perm (B T C OC : Nat) (l : List (Nat × Nat)) (hl : l.Perm (pass1_iters B T))
    (m : Bufs α) : pass1_sched_ideal T C OC l m = pass1_ideal B T C OC m := by
  rw [← pass1_sched_iters]
  unfold pass1_sched_ideal
  apply List.Perm.foldl_eq' hl
  intro x hx y hy z
  have hx' : x ∈ pass1_iters B T := hl.mem_iff.mp hx
  have hy' : y ∈ pass1_iters B T := hl.mem_iff.mp hy
  obtain ⟨b, t⟩ := x
  obtain ⟨b', t'⟩ := y
  simp only [pass1_iters, List.pair_mem_product, List.mem_range] at hx' hy'
  exact pass1_iter_comm T C OC b t b' t' hx'.2 hy'.2 z

/-- Any permutation of the iterations of the second pass gives the sequential result. -/
theorem pass2_sched_perm (B T C OC : Nat) (l : List Nat) (hl : l.Perm (pass2_iters OC))
    (m : Bufs α) : pass2_sched_ideal B T C OC l m = pass2_ideal B T C OC m := by
  rw [← pass2_sched_iters]
  unfold pass2_sched_ideal
  apply List.Perm.foldl_eq' hl
  intro x _ y _ z
  exact pass2_iter_comm B T C OC x y z

/-- The two passes commute. -/
theorem pass1_pass2_comm (B T C OC : Nat) (m : Bufs α) :
    pass1_ideal B T C OC (pass2_ideal B T C OC m) = pass2_ideal B T C OC (pass1_ideal B T C OC m) := by
  simp only [pass1_eq, pass2_eq, pointwise_pointwise]
  rfl

/-- With exact offsets: write sets, their disjointness, the locality of every
iteration, and the equality of every permuted schedule, in either pass order,
with the sequential loops. -/
theorem ideal_schedule_independent (B T C OC : Nat) (m : Bufs α)
    (l1 : List (Nat × Nat)) (l2 : List Nat)
    (h1 : l1.Perm (pass1_iters B T)) (h2 : l2.Perm (pass2_iters OC)) :
    (∀ (b t : Nat) (s : Bufs α),
        (∀ k, ¬ ((b * T + t) * C ≤ k ∧ k < (b * T + t) * C + C) →
          (pass1_iter_ideal T C OC b t s).dinp k = s.dinp k)
        ∧ (pass1_iter_ideal T C OC b t s).dweight = s.dweight
        ∧ (pass1_iter_ideal T C OC b t s).dbias = s.dbias
        ∧ (pass1_iter_ideal T C OC b t s).dout = s.dout
        ∧ (pass1_iter_ideal T C OC b t s).inp = s.inp
        ∧ (pass1_iter_ideal T C OC b t s).weight = s.weight)
    ∧ (∀ b t b' t' k : Nat, t < T → t' < T → (b, t) ≠ (b', t') →
        ¬ (((b * T + t) * C ≤ k ∧ k < (b * T + t) * C + C)
          ∧ ((b' * T + t') * C ≤ k ∧ k < (b' * T + t') * C + C)))
    ∧ (∀ (b t : Nat) (s s' : Bufs α) (k : Nat), s.dout = s'.dout → s.weight = s'.weight →
        s.dinp k = s'.dinp k →
        (pass1_iter_ideal T C OC b t s).dinp k = (pass1_iter_ideal T C OC b t s').dinp k)
    ∧ (∀ (o : Nat) (s : Bufs α),
        (∀ k, ¬ (o * C ≤ k ∧ k < o * C + C) →
          (pass2_iter_ideal B T C OC o s).dweight k = s.dweight k)
        ∧ (∀ k, k ≠ o →
          (pass2_iter_ideal B T C OC o s).dbias.map (fun db => db k) = s.dbias.map (fun db => db k))
        ∧ (pass2_iter_ideal B T C OC o s).dinp = s.dinp
        ∧ (pass2_iter_ideal B T C OC o s).dout = s.dout
        ∧ (pass2_iter_ideal B T C OC o s).inp = s.inp
        ∧ (pass2_iter_ideal B T C OC o s).weight = s.weight)
    ∧ (∀ o o' k : Nat, o ≠ o' →
        ¬ ((o * C ≤ k ∧ k < o * C + C) ∧ (o' * C ≤ k ∧ k < o' * C + C)))
    ∧ (∀ (o : Nat) (s s' : Bufs α) (k : Nat), s.dout = s'.dout → s.inp = s'.inp →
        (s.dweight k = s'.dweight k →
          (pass2_iter_ideal B T C OC o s).dweight k = (pass2_iter_ideal B T C OC o s').dweight k)
        ∧ (s.dbias.map (fun db => db k) = s'.dbias.map (fun db => db k) →
          (pass2_iter_ideal B T C OC o s).dbias.map (fun db => db k)
            = (pass2_iter_ideal B T C OC o s').dbias.map (fun db => db k)))
    ∧ pass1_sched_ideal T C OC l1 m = pass1_ideal B T C OC m
    ∧ pass2_sched_ideal B T C OC l2 m = pass2_ideal B T C OC m
    ∧ pass2_sched_ideal B T C OC l2 (pass1_sched_ideal T C OC l1 m) = backward_ideal B T C OC m
    ∧ pass1_sched_ideal T C OC l1 (pass2_sched_ideal B T C OC l2 m) = backward_ideal B T C OC m := by
  refine ⟨?_, ?_, ?_, ?_, ?_, ?_, ?_, ?_, ?_, ?_⟩
  · intro b t s
    rw [pass1_iter_eq]
    refine ⟨?_, rfl, ?_, rfl, rfl, rfl⟩
    · intro k hk
      have e1 : (b * T + t) * C = b * T * C + t * C := by ring
      rw [e1] at hk
      simp only [Bufs.pointwise, pass1_cell, hk, if_false]
    · simp [Bufs.pointwise]
  · intro b t b' t' k ht ht' hne
    exact slice_disjoint T C b t b' t' k ht ht' hne
  · intro b t s s' k hd hw hk
    simp only [pass1_iter_eq, Bufs.pointwise, hd, hw, hk]
  · intro o s
    rw [pass2_iter_eq]
    refine ⟨?_, ?_, rfl, rfl, rfl, rfl⟩
    · intro k hk
      simp only [Bufs.pointwise, pass2_cell, hk, if_false]
    · intro k hk
      simp only [Bufs.pointwise, pass2_bcell, Option.map_map]
      congr 1
      funext db
      simp only [Function.comp_apply, hk, if_false]
  · intro o o' k hne
    exact row_disjoint C o o' k hne
  · intro o s s' k hd hi
    simp only [pass2_iter_eq, Bufs.pointwise, hd, hi, Option.map_map]
    refine ⟨fun hk => by rw [hk], fun hk => ?_⟩
    have := congrArg (Option.map (pass2_bcell B T OC s'.dout o k)) hk
    simpa [Option.map_map, Function.comp_def] using this
  · exact pass1_sched_perm B T C OC l1 h1 m
  · exact pass2_sched_perm B T C OC l2 h2 m
  · rw [pass1_sched_perm B T C OC l1 h1, pass2_sched_perm B T C OC l2 h2]
    rfl
  · rw [pass2_sched_perm B T C OC l2 h2, pass1_sched_perm B T C OC l1 h1, pass1_pass2_comm]
    rfl

end Schedules

/-! ### Finite differences -/

section FiniteDifferences
variable {α : Type} [CommRing α]

theorem loss_bump_inp (B T C OC : Nat) (dout inp weight bias : Nat → α) (k : Nat) (h : α) :
    loss B T C OC dout (bump inp k h) weight bias - loss B T C OC dout inp weight bias
      = ∑ b ∈ Finset.range B, ∑ t ∈ Finset.range T, ∑ o ∈ Finset.range OC,
          dout ((b * T + t) * OC + o)
            * ∑ c ∈ Finset.range C, if (b * T + t) * C + c = k then h * weight (o * C + c) else 0 := by
  unfold loss forward_ref bump
  simp only [← Finset.sum_sub_distrib]
  refine Finset.sum_congr rfl (fun b _ => Finset.sum_congr rfl (fun t _ =>
    Finset.sum_congr rfl (fun o _ => ?_)))
  rw [← mul_sub, add_sub_add_left_eq_sub, ← Finset.sum_sub_distrib]
  congr 1
  refine Finset.sum_congr rfl (fun c _ => ?_)
  split_ifs <;> ring

theorem loss_bump_weight (B T C OC : Nat) (dout inp weight bias : Nat → α) (k : Nat) (h : α) :
    loss B T C OC dout inp (bump weight k h) bias - loss B T C OC dout inp weight bias
      = ∑ b ∈ Finset.range B, ∑ t ∈ Finset.range T, ∑ o ∈ Finset.range OC,
          dout ((b * T + t) * OC + o)
            * ∑ c ∈ Finset.range C,
                if o * C + c = k then h * inp ((b * T + t) * C + c) else 0 := by
  unfold loss forward_ref bump
  simp only [← Finset.sum_sub_distrib]
  refine Finset.sum_congr rfl (fun b _ => Finset.sum_congr rfl (fun t _ =>
    Finset.sum_congr rfl (fun o _ => ?_)))
  rw [← mul_sub, add_sub_add_left_eq_sub, ← Finset.sum_sub_distrib]
  congr 1
  refine Finset.sum_congr rfl (fun c _ => ?_)
  split_ifs <;> ring

theorem loss_bump_bias (B T C OC : Nat) (dout inp weight bias : Nat → α) (k : Nat) (h : α) :
    loss B T C OC dout inp weight (bump bias k h) - loss B T C OC dout inp weight bias
      = ∑ b ∈ Finset.range B, ∑ t ∈ Finset.range T, ∑ o ∈ Finset.range OC,
          dout ((b * T + t) * OC + o) * (if o = k then h else 0) := by
  unfold loss forward_ref bump
  simp only [← Finset.sum_sub_distrib]
  refine Finset.sum_congr rfl (fun b _ => Finset.sum_congr rfl (fun t _ =>
    Finset.sum_congr rfl (fun o _ => ?_)))
  rw [← mul_sub]
  congr 1
  split_ifs <;> ring

/-- Every offset below `B*T*C` is the offset of a cell `(b, t, i)`. -/
theorem cell_of_offset (B T C k : Nat) (hk : k < B * T * C) :
    ∃ b t i, b < B ∧ t < T ∧ i < C ∧ k = (b * T + t) * C + i := by
  have hC : 0 < C := by
    rcases Nat.eq_zero_or_pos C with h | h
    · subst h; simp at hk
    · exact h
  have hT : 0 < T := by
    rcases Nat.eq_zero_or_pos T with h | h
    · subst h; simp at hk
    · exact h
  refine ⟨k / C / T, k / C % T, k % C, ?_, Nat.mod_lt _ hT, Nat.mod_lt _ hC, ?_⟩
  · rw [Nat.div_div_eq_div_mul, Nat.div_lt_iff_lt_mul (Nat.mul_pos hC hT)]
    calc k < B * T * C := hk
      _ = B * (C * T) := by ring
  · rw [Nat.div_add_mod' (k / C) T, Nat.div_add_mod' k C]

/-- Every offset below `OC*C` is the offset of a cell `(o, i)`. -/
theorem row_of_offset (OC C k : Nat) (hk : k < OC * C) :
    ∃ o i, o < OC ∧ i < C ∧ k = o * C + i := by
  have hC : 0 < C := by
    rcases Nat.eq_zero_or_pos C with h | h
    · subst h; simp at hk
    · exact h
  refine ⟨k / C, k % C, ?_, Nat.mod_lt _ hC, ?_⟩
  · exact (Nat.div_lt_iff_lt_mul hC).mpr hk
  · rw [Nat.div_add_mod' k C]

/-- The offset map `(b, t, c) ↦ (b*T+t)*C + c` is injective on cells. -/
theorem cell_inj (T C b t c b0 t0 i0 : Nat) (ht : t < T) (ht0 : t0 < T) (hc : c < C)
    (hi0 : i0 < C) (h : (b * T + t) * C + c = (b0 * T + t0) * C + i0) :
    b = b0 ∧ t = t0 ∧ c = i0 := by
  have e1 : (b * T + t) * C = b * T * C + t * C := by ring
  have e2 : (b0 * T + t0) * C = b0 * T * C + t0 * C := by ring
  rw [e1, e2] at h
  have := slice_unique T C b t b0 t0 i0 ht ht0 hi0 (by omega) (by omega)
  obtain ⟨rfl, rfl⟩ := this
  exact ⟨rfl, rfl, by omega⟩

theorem inp_difference (B T C OC : Nat) (dout weight : Nat → α) (h : α) (b0 t0 i0 : Nat)
    (hb0 : b0 < B) (ht0 : t0 < T) (hi0 : i0 < C) :
    (∑ b ∈ Finset.range B, ∑ t ∈ Finset.range T, ∑ o ∈ Finset.range OC,
        dout ((b * T + t) * OC + o)
          * ∑ c ∈ Finset.range C,
              if (b * T + t) * C + c = (b0 * T + t0) * C + i0 then h * weight (o * C + c) else 0)
      = h * ∑ o ∈ Finset.range OC, weight (o * C + i0) * dout ((b0 * T + t0) * OC + o) := by
  rw [Finset.sum_eq_single b0, Finset.sum_eq_single t0]
  · rw [Finset.mul_sum]
    refine Finset.sum_congr rfl (fun o _ => ?_)
    rw [Finset.sum_eq_single i0]
    · rw [if_pos rfl]; ring
    · intro c hc hne
      rw [if_neg]
      intro e
      exact hne (cell_inj T C b0 t0 c b0 t0 i0 ht0 ht0 (Finset.mem_range.mp hc) hi0 e).2.2
    · intro hn
      exact absurd (Finset.mem_range.mpr hi0) hn
  · intro t ht hne
    refine Finset.sum_eq_zero (fun o _ => ?_)
    rw [Finset.sum_eq_zero, mul_zero]
    intro c hc
    rw [if_neg]
    intro e
    exact hne (cell_inj T C b0 t c b0 t0 i0 (Finset.mem_range.mp ht) ht0
      (Finset.mem_range.mp hc) hi0 e).2.1
  · intro hn
    exact absurd (Finset.mem_range.mpr ht0) hn
  · intro b _ hne
    refine Finset.sum_eq_zero (fun t ht => Finset.sum_eq_zero (fun o _ => ?_))
    rw [Finset.sum_eq_zero, mul_zero]
    intro c hc
    rw [if_neg]
    intro e
    exact hne (cell_inj T C b t c b0 t0 i0 (Finset.mem_range.mp ht) ht0
      (Finset.mem_range.mp hc) hi0 e).1
  · intro hn
    exact absurd (Finset.mem_range.mpr hb0) hn

theorem weight_difference (B T C OC : Nat) (dout inp : Nat → α) (h : α) (o0 i0 : Nat)
    (ho0 : o0 < OC) (hi0 : i0 < C) :
    (∑ b ∈ Finset.range B, ∑ t ∈ Finset.range T, ∑ o ∈ Finset.range OC,
        dout ((b * T + t) * OC + o)
          * ∑ c ∈ Finset.range C,
              if o * C + c = o0 * C + i0 then h * inp ((b * T + t) * C + c) else 0)
      = h * ∑ b ∈ Finset.range B, ∑ t ∈ Finset.range T,
          inp ((b * T + t) * C + i0) * dout ((b * T + t) * OC + o0) := by
  rw [Finset.mul_sum]
  refine Finset.sum_congr rfl (fun b _ => ?_)
  rw [Finset.mul_sum]
  refine Finset.sum_congr rfl (fun t _ => ?_)
  rw [Finset.sum_eq_single o0]
  · rw [Finset.sum_eq_single i0]
    · rw [if_pos rfl]; ring
    · intro c hc hne
      rw [if_neg]
      intro e
      exact hne (by omega)
    · intro hn
      exact absurd (Finset.mem_range.mpr hi0) hn
  · intro o _ hne
    rw [Finset.sum_eq_zero, mul_zero]
    intro c hc
    rw [if_neg]
    intro e
    have hc' := Finset.mem_range.mp hc
    exact hne (row_unique C o o0 i0 hi0 (by omega) (by omega))
  · intro hn
    exact absurd (Finset.mem_range.mpr ho0) hn

theorem bias_difference (B T OC : Nat) (dout : Nat → α) (h : α) (o0 : Nat) (ho0 : o0 < OC) :
    (∑ b ∈ Finset.range B, ∑ t ∈ Finset.range T, ∑ o ∈ Finset.range OC,
        dout ((b * T + t) * OC + o) * (if o = o0 then h else 0))
      = h * ∑ b ∈ Finset.range B, ∑ t ∈ Finset.range T, dout ((b * T + t) * OC + o0) := by
  rw [Finset.mul_sum]
  refine Finset.sum_congr rfl (fun b _ => ?_)
  rw [Finset.mul_sum]
  refine Finset.sum_congr rfl (fun t _ => ?_)
  rw [Finset.sum_eq_single o0]
  · rw [if_pos rfl]; ring
  · intro o _ hne
    rw [if_neg hne, mul_zero]
  · intro hn
    exact absurd (Finset.mem_range.mpr ho0) hn

end FiniteDifferences

section Gradient
variable {α : Type} [Field α]

/-- With exact offsets: from zero-initialised buffers the routine leaves the
finite-difference gradients of the loss, for every step `h ≠ 0`. -/
theorem ideal_eq_finite_difference (B T C OC : Nat) (dout inp weight bias : Nat → α)
    (h : α) (hh : h ≠ 0) :
    (∀ k, k < B * T * C →
      (backward_ideal B T C OC
        { dinp := fun _ => 0, dweight := fun _ => 0, dbias := some (fun _ => 0),
          dout := dout, inp := inp, weight := weight }).dinp k
        = (loss B T C OC dout (bump inp k h) weight bias
            - loss B T C OC dout inp weight bias) / h)
    ∧ (∀ k, k < OC * C →
      (backward_ideal B T C OC
        { dinp := fun _ => 0, dweight := fun _ => 0, dbias := some (fun _ => 0),
          dout := dout, inp := inp, weight := weight }).dweight k
        = (loss B T C OC dout inp (bump weight k h) bias
            - loss B T C OC dout inp weight bias) / h)
    ∧ ∃ db, (backward_ideal B T C OC
        { dinp := fun _ => 0, dweight := fun _ => 0, dbias := some (fun _ => 0),
          dout := dout, inp := inp, weight := weight }).dbias = some db
      ∧ ∀ o, o < OC →
        db o = (loss B T C OC dout inp weight (bump bias o h)
            - loss B T C OC dout inp weight bias) / h := by
  refine ⟨?_, ?_, ?_⟩
  · intro k hk
    obtain ⟨b, t, i, hb, ht, hi, rfl⟩ := cell_of_offset B T C k hk
    rw [dinp_after_backward B T C OC _ b t i hb ht hi, loss_bump_inp,
      inp_difference B T C OC dout weight h b t i hb ht hi, mul_div_cancel_left₀ _ hh]
    simp
  · intro k hk
    obtain ⟨o, i, ho, hi, rfl⟩ := row_of_offset OC C k hk
    rw [dweight_after_backward B T C OC _ o i ho hi, loss_bump_weight,
      weight_difference B T C OC dout inp h o i ho hi, mul_div_cancel_left₀ _ hh]
    simp
  · obtain ⟨db, hdb, hval⟩ := dbias_after_backward B T C OC
      { dinp := fun _ => 0, dweight := fun _ => 0, dbias := some (fun _ => 0),
        dout := dout, inp := inp, weight := weight } (fun _ => 0) rfl
    refine ⟨db, hdb, ?_⟩
    intro o ho
    rw [hval o ho, loss_bump_bias, bias_difference B T OC dout h o ho,
      mul_div_cancel_left₀ _ hh]
    simp

end Gradient

/-! ### The launch grid -/

section Grid

/-- Rounding `n` up to a multiple of `S`: the facts used about `(n + S - 1) / S * S`. -/
theorem round_up_facts (n S : Nat) (hS : 0 < S) :
    ((n + S - 1) / S * S) % S = 0
    ∧ n ≤ (n + S - 1) / S * S
    ∧ (n + S - 1) / S * S < n + S
    ∧ (∀ m, m % S = 0 → n ≤ m → (n + S - 1) / S * S ≤ m)
    ∧ (n % S = 0 → (n + S - 1) / S * S = n) := by
  have hdm := Nat.div_add_mod (n + S - 1) S
  have hlt := Nat.mod_lt (n + S - 1) hS
  have hcomm : S * ((n + S - 1) / S) = (n + S - 1) / S * S := Nat.mul_comm _ _
  have hle : n ≤ (n + S - 1) / S * S := by omega
  have hup : (n + S - 1) / S * S < n + S := by omega
  have hleast : ∀ m, m % S = 0 → n ≤ m → (n + S - 1) / S * S ≤ m := by
    intro m hm hnm
    have hm' := Nat.div_add_mod m S
    rw [hm, Nat.add_zero] at hm'
    have h1 : (n + S - 1) / S * S < S * (m / S + 1) := by
      rw [Nat.mul_add, Nat.mul_one, hm']
      omega
    rw [Nat.mul_comm ((n + S - 1) / S) S] at h1
    have h2 : (n + S - 1) / S < m / S + 1 := Nat.lt_of_mul_lt_mul_left h1
    have h3 : (n + S - 1) / S * S ≤ m / S * S :=
      Nat.mul_le_mul_right S (Nat.lt_succ_iff.mp h2)
    rw [Nat.mul_comm (m / S) S, hm'] at h3
    exact h3
  refine ⟨Nat.mul_mod_left _ _, hle, hup, hleast, ?_⟩
  intro hn
  exact Nat.le_antisymm (hleast n hn (Nat.le_refl n)) hle

/-- Without overflow the `size_t` computation of a global size is the
mathematical round-up. -/
theorem size_round_up (n S : Nat) (hS : 0 < S) (hS' : S < 2 ^ 64) (h : n + S - 1 < 2 ^ 64) :
    size_mul (size_sub (size_add (to_size_t n) (tile_size S)) 1 / tile_size S) (tile_size S)
      = (n + S - 1) / S * S := by
  have hts : tile_size S = S := by
    unfold tile_size to_size_t
    omega
  have hn : to_size_t n = n := by
    unfold to_size_t
    omega
  have hsub : size_sub (size_add n S) 1 = n + S - 1 := by
    unfold size_sub size_add
    omega
  rw [hts, hn, hsub]
  unfold size_mul
  apply Nat.mod_eq_of_lt
  have := Nat.div_mul_le_self (n + S - 1) S
  omega

theorem bt_round_eq (S B T : Nat) (hS : 0 < S) (hS' : S < 2 ^ 64) (hBT : B * T < 2 ^ 31)
    (h : B * T + S - 1 < 2 ^ 64) : bt_round S B T = (B * T + S - 1) / S * S := by
  have hmul : int_mul B T = ((B * T : Nat) : Int) := by
    unfold int_mul
    have : (B : Int) * (T : Int) = ((B * T : Nat) : Int) := by push_cast; rfl
    rw [this]
    omega
  unfold bt_round
  rw [hmul]
  exact size_round_up (B * T) S hS hS' h

theorem oc_round_eq (S OC : Nat) (hS : 0 < S) (hS' : S < 2 ^ 64) (h : OC + S - 1 < 2 ^ 64) :
    oc_round S OC = (OC + S - 1) / S * S :=
  size_round_up OC S hS hS' h

/-- C7. Launch-grid round-up: when `B * T` fits in an `int` and the `size_t`
additions do not overflow, each global size computed by `cl_matmul_forward` is
the least multiple of the tile size `S > 0` that is at least `B*T` (resp. `OC`):
it is divisible by the local size (the tile size, a `size_t` value), lies in `[B*T, B*T + S)`, is below every
other such multiple, leaves a dimension that is already a multiple of `S`
unchanged, and so the grid contains every output position. -/
theorem launch_grid_round_up (S B T OC : Nat) (hS : 0 < S) (hS' : S < 2 ^ 64)
    (hBT : B * T < 2 ^ 31)
    (hbt : B * T + S - 1 < 2 ^ 64) (hoc : OC + S - 1 < 2 ^ 64) :
    (bt_round S B T = (B * T + S - 1) / S * S ∧ oc_round S OC = (OC + S - 1) / S * S)
    ∧ (bt_round S B T % tile_size S = 0 ∧ oc_round S OC % tile_size S = 0)
    ∧ (bt_round S B T % S = 0 ∧ B * T ≤ bt_round S B T ∧ bt_round S B T < B * T + S)
    ∧ (oc_round S OC % S = 0 ∧ OC ≤ oc_round S OC ∧ oc_round S OC < OC + S)
    ∧ (∀ m, m % S = 0 → B * T ≤ m → bt_round S B T ≤ m)
    ∧ (∀ m, m % S = 0 → OC ≤ m → oc_round S OC ≤ m)
    ∧ ((B * T) % S = 0 → bt_round S B T = B * T)
    ∧ (OC % S = 0 → oc_round S OC = OC)
    ∧ (∀ row col, row < B * T → col < OC → row < bt_round S B T ∧ col < oc_round S OC) := by
  have hts : tile_size S = S := by
    unfold tile_size to_size_t
    omega
  rw [hts, bt_round_eq S B T hS hS' hBT hbt, oc_round_eq S OC hS hS' hoc]
  obtain ⟨a1, a2, a3, a4, a5⟩ := round_up_facts (B * T) S hS
  obtain ⟨b1, b2, b3, b4, b5⟩ := round_up_facts OC S hS
  exact ⟨⟨rfl, rfl⟩, ⟨a1, b1⟩, ⟨a1, a2, a3⟩, ⟨b1, b2, b3⟩, a4, b4, a5, b5,
    fun row col hr hc => ⟨Nat.lt_of_lt_of_le hr a2, Nat.lt_of_lt_of_le hc b2⟩⟩

/-- Witness for C7: `B = 1`, `T = 3`, `OC = 5`, `S = 4`
gives the grid `(4, 8)`. -/
theorem launch_grid_round_up_witness :
    (0 < 4 ∧ 4 < 2 ^ 64 ∧ 1 * 3 < 2 ^ 31 ∧ 1 * 3 + 4 - 1 < 2 ^ 64 ∧ 5 + 4 - 1 < 2 ^ 64)
    ∧ (bt_round 4 1 3 = 4 ∧ oc_round 4 5 = 8)
    ∧ (bt_round 4 1 3 % 4 = 0 ∧ 1 * 3 ≤ bt_round 4 1 3 ∧ bt_round 4 1 3 < 1 * 3 + 4) :=
  ⟨by decide, (launch_grid_round_up 4 1 3 5 (by decide) (by decide) (by decide) (by decide) (by decide)).1,
    (launch_grid_round_up 4 1 3 5 (by decide) (by decide) (by decide) (by decide) (by decide)).2.2.1⟩

end Grid

/-! ### Status codes -/

section Fatal

theorem nat_lor_eq_zero (m n : Nat) : m ||| n = 0 ↔ m = 0 ∧ n = 0 := by
  constructor
  · intro h
    have hb : ∀ i, (m.testBit i || n.testBit i) = false := by
      intro i
      rw [← Nat.testBit_or, h, Nat.zero_testBit]
    constructor
    · apply Nat.eq_of_testBit_eq
      intro i
      have := hb i
      rw [Nat.zero_testBit]
      cases hm : m.testBit i
      · rfl
      · rw [hm] at this; simp at this
    · apply Nat.eq_of_testBit_eq
      intro i
      have := hb i
      rw [Nat.zero_testBit]
      cases hn : n.testBit i
      · rfl
      · rw [hn] at this; simp at this
  · rintro ⟨rfl, rfl⟩
    rfl

theorem cl_int_or_range (a b : Int) : is_cl_int (cl_int_or a b) := by
  have h : (a % 2 ^ 32).toNat ||| (b % 2 ^ 32).toNat < 2 ^ 32 :=
    Nat.or_lt_two_pow (by omega) (by omega)
  unfold cl_int_or is_cl_int
  simp only
  split <;> omega

/-- The bitwise OR of two status codes is `0` only when both are `0`. -/
theorem cl_int_or_eq_zero (a b : Int) (ha : is_cl_int a) (hb : is_cl_int b) :
    cl_int_or a b = 0 ↔ a = 0 ∧ b = 0 := by
  unfold is_cl_int at ha hb
  have h : (a % 2 ^ 32).toNat ||| (b % 2 ^ 32).toNat < 2 ^ 32 :=
    Nat.or_lt_two_pow (by omega) (by omega)
  have hz := nat_lor_eq_zero (a % 2 ^ 32).toNat (b % 2 ^ 32).toNat
  unfold cl_int_or
  simp only
  constructor
  · intro h0
    have hr : (a % 2 ^ 32).toNat ||| (b % 2 ^ 32).toNat = 0 := by
      split at h0 <;> omega
    have := hz.mp hr
    omega
  · rintro ⟨rfl, rfl⟩
    rfl

theorem bindings_err_eq_zero (st : Status) (hst : st.valid) :
    bindings_err st = 0 ↔ bindings_ok st := by
  obtain ⟨_, _, _, v4, v5, v6, v7, v8, _, _, _⟩ := hst
  unfold bindings_err bindings_ok
  rw [cl_int_or_eq_zero _ _ (cl_int_or_range _ _) v8,
    cl_int_or_eq_zero _ _ (cl_int_or_range _ _) v7,
    cl_int_or_eq_zero _ _ (cl_int_or_range _ _) v6, cl_int_or_eq_zero _ _ v4 v5]
  simp only [and_assoc]

end Fatal

section Outcomes

variable {α : Type}

/-- The outcome when a transfer failed. -/
theorem forward_transfer_failed (S : Nat) (kernel : Kernel α) (st : Status) (gcl : GPT2_CL α)
    (out inp weight : Nat → α) (bias : Option (Nat → α)) (B T C OC : Nat)
    (hst : st.valid) (h : ¬ transfers_ok st bias.isSome) :
    (cl_matmul_forward S kernel st gcl out inp weight bias B T C OC).exited = some 1
    ∧ (cl_matmul_forward S kernel st gcl out inp weight bias B T C OC).printed
        = ["error: failed to write to source array!\n"]
    ∧ (cl_matmul_forward S kernel st gcl out inp weight bias B T C OC).out = out
    ∧ (cl_matmul_forward S kernel st gcl out inp weight bias B T C OC).gcl.calls
        = gcl.calls ++ transfer_calls bias.isSome B T C OC := by
  cases bias with
  | none =>
    have h' : ¬ cl_int_or st.write_inp st.write_weight = 0 := by
      rw [cl_int_or_eq_zero _ _ hst.1 hst.2.1]
      intro hc
      exact h ⟨hc.1, hc.2, by simp⟩
    simp [cl_matmul_forward, h', transfer_calls]
  | some bv =>
    have h' : ¬ cl_int_or (cl_int_or st.write_inp st.write_weight) st.write_bias = 0 := by
      rw [cl_int_or_eq_zero _ _ (cl_int_or_range _ _) hst.2.2.1,
        cl_int_or_eq_zero _ _ hst.1 hst.2.1]
      intro hc
      exact h ⟨hc.1.1, hc.1.2, fun _ => hc.2⟩
    simp [cl_matmul_forward, h', transfer_calls]

theorem transfers_ok_iff (st : Status) (hst : st.valid) (bias : Option (Nat → α)) :
    transfers_ok st bias.isSome ↔
      (match bias with
        | some _ => cl_int_or (cl_int_or st.write_inp st.write_weight) st.write_bias
        | none => cl_int_or st.write_inp st.write_weight) = 0 := by
  cases bias with
  | none => simp [transfers_ok, cl_int_or_eq_zero _ _ hst.1 hst.2.1]
  | some bv =>
    simp [transfers_ok, cl_int_or_eq_zero _ _ (cl_int_or_range _ _) hst.2.2.1,
      cl_int_or_eq_zero _ _ hst.1 hst.2.1, and_assoc]

/-- The outcome when the transfers succeeded and a binding failed. -/
theorem forward_binding_failed (S : Nat) (kernel : Kernel α) (st : Status) (gcl : GPT2_CL α)
    (out inp weight : Nat → α) (bias : Option (Nat → α)) (B T C OC : Nat)
    (hst : st.valid) (h1 : transfers_ok st bias.isSome) (h2 : ¬ bindings_ok st) :
    (cl_matmul_forward S kernel st gcl out inp weight bias B T C OC).exited = some 1
    ∧ (cl_matmul_forward S kernel st gcl out inp weight bias B T C OC).printed
        = ["error: failed to set kernel arguments! " ++ toString (bindings_err st) ++ "\n"]
    ∧ (cl_matmul_forward S kernel st gcl out inp weight bias B T C OC).out = out
    ∧ (cl_matmul_forward S kernel st gcl out inp weight bias B T C OC).gcl.calls
        = gcl.calls ++ transfer_calls bias.isSome B T C OC ++ binding_calls bias.isSome B T C OC := by
  have h1' := (transfers_ok_iff st hst bias).mp h1
  have h2' : ¬ bindings_err st = 0 := fun hc => h2 ((bindings_err_eq_zero st hst).mp hc)
  unfold bindings_err at h2'
  cases bias with
  | none =>
    simp only at h1'
    simp [cl_matmul_forward, h1', h2', transfer_calls, binding_calls, bindings_err]
  | some bv =>
    simp only at h1'
    simp [cl_matmul_forward, h1', h2', transfer_calls, binding_calls, bindings_err]

/-- The outcome when transfers and bindings succeeded and the launch failed. -/
theorem forward_launch_failed (S : Nat) (kernel : Kernel α) (st : Status) (gcl : GPT2_CL α)
    (out inp weight : Nat → α) (bias : Option (Nat → α)) (B T C OC : Nat)
    (hst : st.valid) (h1 : transfers_ok st bias.isSome) (h2 : bindings_ok st) (h3 : st.nd_range ≠ 0) :
    (cl_matmul_forward S kernel st gcl out inp weight bias B T C OC).exited = some 1
    ∧ (cl_matmul_forward S kernel st gcl out inp weight bias B T C OC).printed
        = ["error: failed to execute kernel! " ++ toString st.nd_range ++ "\n"]
    ∧ (cl_matmul_forward S kernel st gcl out inp weight bias B T C OC).out = out
    ∧ (cl_matmul_forward S kernel st gcl out inp weight bias B T C OC).gcl.calls
        = gcl.calls ++ transfer_calls bias.isSome B T C OC ++ binding_calls bias.isSome B T C OC
            ++ launch_calls S B T OC := by
  have h1' := (transfers_ok_iff st hst bias).mp h1
  have h2' := (bindings_err_eq_zero st hst).mpr h2
  unfold bindings_err at h2'
  cases bias with
  | none =>
    simp only at h1'
    simp [cl_matmul_forward, h1', h2', h3, transfer_calls, binding_calls, launch_calls]
  | some bv =>
    simp only at h1'
    simp [cl_matmul_forward, h1', h2', h3, transfer_calls, binding_calls, launch_calls]

/-- The outcome when only the read-back failed. -/
theorem forward_readback_failed (S : Nat) (kernel : Kernel α) (st : Status) (gcl : GPT2_CL α)
    (out inp weight : Nat → α) (bias : Option (Nat → α)) (B T C OC : Nat)
    (hst : st.valid) (h1 : transfers_ok st bias.isSome) (h2 : bindings_ok st) (h3 : st.nd_range = 0)
    (h4 : st.read_out ≠ 0) :
    (cl_matmul_forward S kernel st gcl out inp weight bias B T C OC).exited = some 1
    ∧ (cl_matmul_forward S kernel st gcl out inp weight bias B T C OC).printed
        = ["error: failed to read output array! " ++ toString st.read_out ++ "\n"]
    ∧ (cl_matmul_forward S kernel st gcl out inp weight bias B T C OC).gcl.calls
        = gcl.calls ++ transfer_calls bias.isSome B T C OC ++ binding_calls bias.isSome B T C OC
            ++ launch_calls S B T OC ++ readback_calls B T OC := by
  have h1' := (transfers_ok_iff st hst bias).mp h1
  have h2' := (bindings_err_eq_zero st hst).mpr h2
  unfold bindings_err at h2'
  cases bias with
  | none =>
    simp only at h1'
    simp [cl_matmul_forward, h1', h2', h3, h4, transfer_calls, binding_calls, launch_calls,
      readback_calls]
  | some bv =>
    simp only at h1'
    simp [cl_matmul_forward, h1', h2', h3, h4, transfer_calls, binding_calls, launch_calls,
      readback_calls]

/-- The outcome when every device call succeeded. -/
theorem forward_succeeded (S : Nat) (kernel : Kernel α) (st : Status) (gcl : GPT2_CL α)
    (out inp weight : Nat → α) (bias : Option (Nat → α)) (B T C OC : Nat)
    (h1 : transfers_ok st bias.isSome) (h2 : bindings_ok st) (h3 : st.nd_range = 0)
    (h4 : st.read_out = 0) :
    (cl_matmul_forward S kernel st gcl out inp weight bias B T C OC).exited = none
    ∧ (cl_matmul_forward S kernel st gcl out inp weight bias B T C OC).printed = []
    ∧ (cl_matmul_forward S kernel st gcl out inp weight bias B T C OC).gcl.calls
        = gcl.calls ++ transfer_calls bias.isSome B T C OC ++ binding_calls bias.isSome B T C OC
            ++ launch_calls S B T OC ++ readback_calls B T OC
    ∧ (cl_matmul_forward S kernel st gcl out inp weight bias B T C OC).out
        = copy_floats (bytes3 B T OC)
            (kernel (copy_floats (bytes3 B T C) inp gcl.matmul_A)
              (copy_floats (bytes2 OC C) weight gcl.matmul_B)
              (staged_bias bias OC gcl.matmul_bias)
              gcl.matmul_out (bound_args gcl.kernel_arg bias.isSome B T C OC)
              (bt_round S B T) (oc_round S OC) (tile_size S) (tile_size S)) out := by
  obtain ⟨a1, a2, a3⟩ := h1
  obtain ⟨b1, b2, b3, b4, b5⟩ := h2
  have hz : cl_int_or 0 0 = 0 := by decide
  cases bias with
  | none =>
    simp [cl_matmul_forward, h3, h4, transfer_calls, binding_calls, launch_calls,
      readback_calls, a1, a2, b1, b2, b3, b4, b5, bound_args, hz, staged_bias]
  | some bv =>
    have a3' := a3 rfl
    simp [cl_matmul_forward, h3, h4, transfer_calls, binding_calls, launch_calls,
      readback_calls, a1, a2, a3', b1, b2, b3, b4, b5, bound_args, hz, staged_bias]

/-- C8. Fatal-on-error semantics of `cl_matmul_forward`, for arbitrary status
codes: the routine returns iff every transfer it performs, every one of the
five bindings, the launch and the read-back returned `CL_SUCCESS`; otherwise
the process exits with status 1 after printing the diagnostic of the first
stage that failed, and the device calls made are exactly those up to and
including that stage, so that no later stage runs and `out` is not written.
A bitwise OR of status codes (`cl_int` values) is `0` only when every code
is `0`. -/
theorem forward_fatal_on_error (S : Nat) (kernel : Kernel α) (st : Status) (gcl : GPT2_CL α)
    (out inp weight : Nat → α) (bias : Option (Nat → α)) (B T C OC : Nat) (hst : st.valid) :
    ((cl_matmul_forward S kernel st gcl out inp weight bias B T C OC).exited = none ↔
      transfers_ok st bias.isSome ∧ bindings_ok st ∧ st.nd_range = 0 ∧ st.read_out = 0)
    ∧ ((cl_matmul_forward S kernel st gcl out inp weight bias B T C OC).exited ≠ none →
      (cl_matmul_forward S kernel st gcl out inp weight bias B T C OC).exited = some 1)
    ∧ (¬ transfers_ok st bias.isSome →
      (cl_matmul_forward S kernel st gcl out inp weight bias B T C OC).exited = some 1
      ∧ (cl_matmul_forward S kernel st gcl out inp weight bias B T C OC).printed
          = ["error: failed to write to source array!\n"]
      ∧ (cl_matmul_forward S kernel st gcl out inp weight bias B T C OC).out = out
      ∧ (cl_matmul_forward S kernel st gcl out inp weight bias B T C OC).gcl.calls
          = gcl.calls ++ transfer_calls bias.isSome B T C OC)
    ∧ (transfers_ok st bias.isSome → ¬ bindings_ok st →
      (cl_matmul_forward S kernel st gcl out inp weight bias B T C OC).exited = some 1
      ∧ (cl_matmul_forward S kernel st gcl out inp weight bias B T C OC).printed
          = ["error: failed to set kernel arguments! " ++ toString (bindings_err st) ++ "\n"]
      ∧ (cl_matmul_forward S kernel st gcl out inp weight bias B T C OC).out = out
      ∧ (cl_matmul_forward S kernel st gcl out inp weight bias B T C OC).gcl.calls
          = gcl.calls ++ transfer_calls bias.isSome B T C OC
              ++ binding_calls bias.isSome B T C OC)
    ∧ (transfers_ok st bias.isSome → bindings_ok st → st.nd_range ≠ 0 →
      (cl_matmul_forward S kernel st gcl out inp weight bias B T C OC).exited = some 1
      ∧ (cl_matmul_forward S kernel st gcl out inp weight bias B T C OC).printed
          = ["error: failed to execute kernel! " ++ toString st.nd_range ++ "\n"]
      ∧ (cl_matmul_forward S kernel st gcl out inp weight bias B T C OC).out = out
      ∧ (cl_matmul_forward S kernel st gcl out inp weight bias B T C OC).gcl.calls
          = gcl.calls ++ transfer_calls bias.isSome B T C OC
              ++ binding_calls bias.isSome B T C OC ++ launch_calls S B T OC)
    ∧ (transfers_ok st bias.isSome → bindings_ok st → st.nd_range = 0 → st.read_out ≠ 0 →
      (cl_matmul_forward S kernel st gcl out inp weight bias B T C OC).exited = some 1
      ∧ (cl_matmul_forward S kernel st gcl out inp weight bias B T C OC).printed
          = ["error: failed to read output array! " ++ toString st.read_out ++ "\n"]
      ∧ (cl_matmul_forward S kernel st gcl out inp weight bias B T C OC).gcl.calls
          = gcl.calls ++ transfer_calls bias.isSome B T C OC
              ++ binding_calls bias.isSome B T C OC ++ launch_calls S B T OC
              ++ readback_calls B T OC)
    ∧ (∀ a b : Int, is_cl_int a → is_cl_int b →
      (cl_int_or a b = 0 ↔ a = 0 ∧ b = 0) ∧ is_cl_int (cl_int_or a b))
    ∧ (bindings_err st = 0 ↔ bindings_ok st) := by
  have hcases : (cl_matmul_forward S kernel st gcl out inp weight bias B T C OC).exited = none ↔
      transfers_ok st bias.isSome ∧ bindings_ok st ∧ st.nd_range = 0 ∧ st.read_out = 0 := by
    by_cases h1 : transfers_ok st bias.isSome
    · by_cases h2 : bindings_ok st
      · by_cases h3 : st.nd_range = 0
        · by_cases h4 : st.read_out = 0
          · simp [(forward_succeeded S kernel st gcl out inp weight bias B T C OC h1 h2 h3 h4).1,
              h1, h2, h3, h4]
          · simp [(forward_readback_failed S kernel st gcl out inp weight bias B T C OC
              hst h1 h2 h3 h4).1, h4]
        · simp [(forward_launch_failed S kernel st gcl out inp weight bias B T C OC hst h1 h2 h3).1,
            h3]
      · simp [(forward_binding_failed S kernel st gcl out inp weight bias B T C OC hst h1 h2).1, h2]
    · simp [(forward_transfer_failed S kernel st gcl out inp weight bias B T C OC hst h1).1, h1]
  refine ⟨hcases, ?_, ?_, ?_, ?_, ?_,
    fun a b ha hb => ⟨cl_int_or_eq_zero a b ha hb, cl_int_or_range a b⟩,
    bindings_err_eq_zero st hst⟩
  · intro hne
    by_cases h1 : transfers_ok st bias.isSome
    · by_cases h2 : bindings_ok st
      · by_cases h3 : st.nd_range = 0
        · by_cases h4 : st.read_out = 0
          · exact absurd (hcases.mpr ⟨h1, h2, h3, h4⟩) hne
          · exact (forward_readback_failed S kernel st gcl out inp weight bias B T C OC
              hst h1 h2 h3 h4).1
        · exact (forward_launch_failed S kernel st gcl out inp weight bias B T C OC hst h1 h2 h3).1
      · exact (forward_binding_failed S kernel st gcl out inp weight bias B T C OC hst h1 h2).1
    · exact (forward_transfer_failed S kernel st gcl out inp weight bias B T C OC hst h1).1
  · exact forward_transfer_failed S kernel st gcl out inp weight bias B T C OC hst
  · exact forward_binding_failed S kernel st gcl out inp weight bias B T C OC hst
  · exact forward_launch_failed S kernel st gcl out inp weight bias B T C OC hst
  · exact forward_readback_failed S kernel st gcl out inp weight bias B T C OC hst

end Outcomes

/-! ### The forward result -/

section ForwardResult

theorem to_size_t_int (x : Nat) (hx : x < 2 ^ 31) : to_size_t x = x := by
  unfold to_size_t
  omega

theorem mul_int_lt (x y : Nat) (hx : x < 2 ^ 31) (hy : y < 2 ^ 31) : x * y < 2 ^ 62 := by
  calc x * y ≤ x * 2 ^ 31 := Nat.mul_le_mul_left x (Nat.le_of_lt hy)
    _ < 2 ^ 31 * 2 ^ 31 := Nat.mul_lt_mul_of_pos_right hx (by norm_num)
    _ = 2 ^ 62 := by norm_num

/-- Element count of the transfers of `inp` and `out`: no `size_t` wrap-around. -/
theorem bytes3_eq (x y z : Nat) (hx : x < 2 ^ 31) (hy : y < 2 ^ 31) (hz : z < 2 ^ 31)
    (hxy : x * y < 2 ^ 31) : bytes3 x y z / 4 = x * y * z := by
  have h1 := mul_int_lt (x * y) z hxy hz
  unfold bytes3 size_mul
  rw [to_size_t_int x hx, to_size_t_int y hy, to_size_t_int z hz]
  have e1 : 4 * x % 2 ^ 64 = 4 * x := Nat.mod_eq_of_lt (by omega)
  have e2 : 4 * x * y % 2 ^ 64 = 4 * (x * y) := by
    rw [Nat.mul_assoc]
    exact Nat.mod_eq_of_lt (by omega)
  have e3 : 4 * (x * y) * z % 2 ^ 64 = 4 * (x * y * z) := by
    rw [Nat.mul_assoc]
    exact Nat.mod_eq_of_lt (by omega)
  rw [e1, e2, e3]
  omega

theorem bytes2_eq (x y : Nat) (hx : x < 2 ^ 31) (hy : y < 2 ^ 31) : bytes2 x y / 4 = x * y := by
  have h1 := mul_int_lt x y hx hy
  unfold bytes2 size_mul
  rw [to_size_t_int x hx, to_size_t_int y hy]
  have e1 : 4 * x % 2 ^ 64 = 4 * x := Nat.mod_eq_of_lt (by omega)
  have e2 : 4 * x * y % 2 ^ 64 = 4 * (x * y) := by
    rw [Nat.mul_assoc]
    exact Nat.mod_eq_of_lt (by omega)
  rw [e1, e2]
  omega

theorem bytes1_eq (x : Nat) (hx : x < 2 ^ 31) : bytes1 x / 4 = x := by
  unfold bytes1 size_mul
  rw [to_size_t_int x hx]
  omega

/-- Element `c` of row `r` of an `R × C` matrix lies inside the matrix. -/
theorem offset_lt (R C r c : Nat) (hr : r < R) (hc : c < C) : r * C + c < R * C := by
  have := Nat.mul_le_mul_right C (Nat.succ_le_of_lt hr)
  rw [Nat.succ_mul] at this
  omega

variable {α : Type} [CommRing α]

/-- The reference kernel meets the kernel contract. -/
theorem ref_kernel_spec : KernelSpec (ref_kernel : Kernel α) := by
  intro A Bm bias out karg g0 g1 l0 l1 B T C OC h4 h5 h6 h7
  have e4 : (karg 4).toNat = B := by rw [h4]; rfl
  have e5 : (karg 5).toNat = T := by rw [h5]; rfl
  have e6 : (karg 6).toNat = C := by rw [h6]; rfl
  have e7 : (karg 7).toNat = OC := by rw [h7]; rfl
  constructor
  · intro row col hr hc hrow hcol
    have hOC : OC ≠ 0 := by omega
    have hdiv : (row * OC + col) / OC = row := by
      rw [Nat.mul_comm, Nat.mul_add_div (by omega), Nat.div_eq_of_lt hcol, Nat.add_zero]
    have hmod : (row * OC + col) % OC = col := by
      rw [Nat.mul_comm, Nat.mul_add_mod, Nat.mod_eq_of_lt hcol]
    simp only [ref_kernel, e4, e5, e6, e7, hOC, if_false, hdiv, hmod]
    rw [if_pos ⟨hr, hc, hrow⟩]
  · intro k hk
    simp only [ref_kernel, e4, e5, e6, e7]
    by_cases hOC : OC = 0
    · rw [if_pos hOC]
    · rw [if_neg hOC]
      rw [if_neg]
      rintro ⟨_, _, h3⟩
      have hOCpos : 0 < OC := Nat.pos_of_ne_zero hOC
      refine hk (k / OC) (k % OC) h3 (Nat.mod_lt _ hOCpos) ?_
      rw [Nat.div_add_mod' k OC]

/-- C9. Forward result guarantee.  Let the device kernel meet its contract, let
`B`, `T`, `C`, `OC` be `int` values with `B * T` representable, let the tile size
be a positive `size_t` value for which the grid additions do not overflow, and
let every device call return `CL_SUCCESS`.  Then `cl_matmul_forward` returns
with `out[(b*T+t)*OC+oc] = bias[oc] + sum over c < C of
inp[(b*T+t)*C+c] * weight[oc*C+c]` for all `b < B`, `t < T`, `oc < OC` (without
the bias term when `bias` is absent), leaves `out` beyond `B*T*OC` elements
untouched, and has issued exactly: the transfers of `B*T*C` elements of `inp`
and `OC*C` of `weight` (and `OC` of `bias` iff present), the bindings of `B`,
`T`, `C`, `OC` and of `use_bias = 1` iff `bias` is present, one launch on a grid
covering `B*T × OC`, the finish barrier, and the read-back of `B*T*OC`
elements. -/
theorem forward_result (S : Nat) (kernel : Kernel α) (st : Status) (gcl : GPT2_CL α)
    (out inp weight : Nat → α) (bias : Option (Nat → α)) (B T C OC : Nat)
    (hker : KernelSpec kernel) (hS : 0 < S) (hS' : S < 2 ^ 64)
    (hB : B < 2 ^ 31) (hT : T < 2 ^ 31) (hC : C < 2 ^ 31) (hOC : OC < 2 ^ 31)
    (hBT : B * T < 2 ^ 31) (hbt : B * T + S - 1 < 2 ^ 64) (hoc : OC + S - 1 < 2 ^ 64)
    (h1 : transfers_ok st bias.isSome) (h2 : bindings_ok st) (h3 : st.nd_range = 0)
    (h4 : st.read_out = 0) :
    (cl_matmul_forward S kernel st gcl out inp weight bias B T C OC).exited = none
    ∧ (cl_matmul_forward S kernel st gcl out inp weight bias B T C OC).printed = []
    ∧ (∀ bv, bias = some bv → ∀ b t oc, b < B → t < T → oc < OC →
      (cl_matmul_forward S kernel st gcl out inp weight bias B T C OC).out ((b * T + t) * OC + oc)
        = bv oc + ∑ c ∈ Finset.range C, inp ((b * T + t) * C + c) * weight (oc * C + c))
    ∧ (bias = none → ∀ b t oc, b < B → t < T → oc < OC →
      (cl_matmul_forward S kernel st gcl out inp weight bias B T C OC).out ((b * T + t) * OC + oc)
        = ∑ c ∈ Finset.range C, inp ((b * T + t) * C + c) * weight (oc * C + c))
    ∧ (∀ k, B * T * OC ≤ k →
      (cl_matmul_forward S kernel st gcl out inp weight bias B T C OC).out k = out k)
    ∧ (cl_matmul_forward S kernel st gcl out inp weight bias B T C OC).gcl.calls
        = gcl.calls
          ++ ([DevCall.write_A (bytes3 B T C), DevCall.write_B (bytes2 OC C)]
            ++ (if bias.isSome then [DevCall.write_bias (bytes1 OC)] else []))
          ++ [DevCall.set_arg 4 B, DevCall.set_arg 5 T, DevCall.set_arg 6 C,
              DevCall.set_arg 7 OC, DevCall.set_arg 8 (if bias.isSome then 1 else 0)]
          ++ [DevCall.nd_range ((B * T + S - 1) / S * S) ((OC + S - 1) / S * S) S S]
          ++ [DevCall.finish, DevCall.read_out (bytes3 B T OC)]
    ∧ (bytes3 B T C / 4 = B * T * C ∧ bytes2 OC C / 4 = OC * C ∧ bytes1 OC / 4 = OC
      ∧ bytes3 B T OC / 4 = B * T * OC)
    ∧ (B * T ≤ (B * T + S - 1) / S * S ∧ OC ≤ (OC + S - 1) / S * S) := by
  obtain ⟨r1, r2, r3, r4⟩ := forward_succeeded S kernel st gcl out inp weight bias B T C OC
    h1 h2 h3 h4
  have hg0 := bt_round_eq S B T hS hS' hBT hbt
  have hg1 := oc_round_eq S OC hS hS' hoc
  have hts : tile_size S = S := by
    unfold tile_size to_size_t
    omega
  have hcov0 := (round_up_facts (B * T) S hS).2.1
  have hcov1 := (round_up_facts OC S hS).2.1
  have hbA := bytes3_eq B T C hB hT hC hBT
  have hbB := bytes2_eq OC C hOC hC
  have hbb := bytes1_eq OC hOC
  have hbO := bytes3_eq B T OC hB hT hOC hBT
  have hcell : ∀ b t oc, b < B → t < T → oc < OC →
      (cl_matmul_forward S kernel st gcl out inp weight bias B T C OC).out ((b * T + t) * OC + oc)
        = (if bias.isSome then staged_bias bias OC gcl.matmul_bias oc else 0)
          + ∑ c ∈ Finset.range C, inp ((b * T + t) * C + c) * weight (oc * C + c) := by
    intro b t oc hb ht hoc'
    have hrow : b * T + t < B * T := offset_lt B T b t hb ht
    have hidx : (b * T + t) * OC + oc < B * T * OC := offset_lt (B * T) OC _ _ hrow hoc'
    rw [r4]
    simp only [copy_floats, hbO, hidx, if_true]
    have hk := (hker (copy_floats (bytes3 B T C) inp gcl.matmul_A)
      (copy_floats (bytes2 OC C) weight gcl.matmul_B)
      (staged_bias bias OC gcl.matmul_bias)
      gcl.matmul_out (bound_args gcl.kernel_arg bias.isSome B T C OC)
      (bt_round S B T) (oc_round S OC) (tile_size S) (tile_size S) B T C OC
      (by simp [bound_args, Function.update]) (by simp [bound_args, Function.update])
      (by simp [bound_args, Function.update]) (by simp [bound_args, Function.update])).1
      (b * T + t) oc (by rw [hg0]; omega) (by rw [hg1]; omega) hrow hoc'
    simp only [copy_floats] at hk
    rw [hk]
    congr 1
    · cases bias <;> simp [bound_args]
    · refine Finset.sum_congr rfl (fun c hc => ?_)
      have hc' := Finset.mem_range.mp hc
      rw [if_pos (by rw [hbA]; exact offset_lt (B * T) C _ _ hrow hc'),
        if_pos (by rw [hbB]; exact offset_lt OC C _ _ hoc' hc')]
  refine ⟨r1, r2, ?_, ?_, ?_, ?_, ⟨hbA, hbB, hbb, hbO⟩, ⟨hcov0, hcov1⟩⟩
  · intro bv hbv b t oc hb ht hoc'
    rw [hcell b t oc hb ht hoc', hbv]
    simp [staged_bias, copy_floats, hbb, hoc']
  · intro hbn b t oc hb ht hoc'
    rw [hcell b t oc hb ht hoc', hbn]
    simp
  · intro k hk
    rw [r4]
    simp only [copy_floats, hbO]
    rw [if_neg (by omega)]
  · rw [r3]
    simp only [transfer_calls, binding_calls, launch_calls, readback_calls, hg0, hg1, hts]

end ForwardResult

/-! ### The routine in the absence of `int` overflow -/

section NoOverflow

theorem mul_int_some (a b : Nat) (h : a * b < 2 ^ 31) : mul_int a b = some (a * b) := by
  unfold mul_int
  rw [if_pos h]

theorem slice_offset_some (T N b t : Nat) (h1 : b * T < 2 ^ 31) (h2 : b * T * N < 2 ^ 31)
    (h3 : t * N < 2 ^ 31) : slice_offset T N b t = some (b * T * N + t * N) := by
  unfold slice_offset
  rw [mul_int_some b T h1]
  simp only [Option.some_bind]
  rw [mul_int_some (b * T) N h2]
  simp only [Option.some_bind]
  rw [mul_int_some t N h3]
  simp only [Option.some_bind]

/-- A loop all of whose iterations have a result has the result of the loop
of these results. -/
theorem forLoopOpt_some {σ : Type} (n : Nat) (body : Nat → σ → Option σ) (body' : Nat → σ → σ)
    (s : σ) (h : ∀ j, j < n → ∀ s, body j s = some (body' j s)) :
    forLoopOpt n body s = some (forLoop n body' s) := by
  induction n with
  | zero => rfl
  | succ n ih =>
    simp only [forLoopOpt, forLoop]
    rw [ih (fun j hj => h j (Nat.lt_succ_of_lt hj)), Option.some_bind, h n (Nat.lt_succ_self n)]

/-- A loop one of whose iterations never has a result has no result. -/
theorem forLoopOpt_none {σ : Type} (n : Nat) (body : Nat → σ → Option σ) (s : σ) (j : Nat)
    (hj : j < n) (h : ∀ s, body j s = none) : forLoopOpt n body s = none := by
  induction n with
  | zero => omega
  | succ n ih =>
    simp only [forLoopOpt]
    by_cases hn : j = n
    · subst hn
      cases forLoopOpt j body s with
      | none => rfl
      | some s' => exact h s'
    · rw [ih (by omega)]
      rfl

/-- The products evaluated in iteration `(b, t)` fit in an `int`. -/
theorem iter_bounds (B T C OC b t : Nat) (h : no_int_overflow B T C OC) (hb : b < B)
    (ht : t < T) :
    b * T < 2 ^ 31 ∧ b * T * OC < 2 ^ 31 ∧ t * OC < 2 ^ 31 ∧ b * T * C < 2 ^ 31
      ∧ t * C < 2 ^ 31 := by
  obtain ⟨_, _, _, _, h1, h2, h3, _⟩ := h
  have hbT : b * T ≤ B * T := Nat.mul_le_mul_right T (Nat.le_of_lt hb)
  have hT : T ≤ B * T := by
    calc T = 1 * T := (Nat.one_mul T).symm
      _ ≤ B * T := Nat.mul_le_mul_right T (by omega)
  have a1 : b * T * OC ≤ B * T * OC := Nat.mul_le_mul_right OC hbT
  have a2 : t * OC ≤ B * T * OC :=
    Nat.le_trans (Nat.mul_le_mul_right OC (Nat.le_of_lt ht)) (Nat.mul_le_mul_right OC hT)
  have a3 : b * T * C ≤ B * T * C := Nat.mul_le_mul_right C hbT
  have a4 : t * C ≤ B * T * C :=
    Nat.le_trans (Nat.mul_le_mul_right C (Nat.le_of_lt ht)) (Nat.mul_le_mul_right C hT)
  exact ⟨by omega, by omega, by omega, by omega, by omega⟩

theorem row_bound (B T C OC o : Nat) (h : no_int_overflow B T C OC) (ho : o < OC) :
    o * C < 2 ^ 31 := by
  have := Nat.mul_le_mul_right C (Nat.le_of_lt ho)
  have := h.2.2.2.2.2.2.2
  omega

variable {α : Type} [Add α] [Mul α]

theorem pass1_iter_some (B T C OC b t : Nat) (h : no_int_overflow B T C OC) (hb : b < B)
    (ht : t < T) (m : Bufs α) :
    pass1_iter T C OC b t m = some (pass1_iter_ideal T C OC b t m) := by
  obtain ⟨h1, h2, h3, h4, h5⟩ := iter_bounds B T C OC b t h hb ht
  unfold pass1_iter pass1_iter_ideal
  rw [slice_offset_some T OC b t h1 h2 h3, slice_offset_some T C b t h1 h4 h5]
  simp only [Option.some_bind]
  apply forLoopOpt_some
  intro o ho s
  rw [mul_int_some o C (row_bound B T C OC o h ho)]
  rfl

theorem pass1_some (B T C OC : Nat) (h : no_int_overflow B T C OC) (m : Bufs α) :
    pass1 B T C OC m = some (pass1_ideal B T C OC m) := by
  unfold pass1 pass1_ideal
  apply forLoopOpt_some
  intro b hb s
  apply forLoopOpt_some
  intro t ht s'
  exact pass1_iter_some B T C OC b t h hb ht s'

theorem pass2_step_some (B T C OC o b t : Nat) (h : no_int_overflow B T C OC) (ho : o < OC)
    (hb : b < B) (ht : t < T) (m : Bufs α) :
    pass2_step T C OC o b t m = some (pass2_step_ideal T C OC o b t m) := by
  obtain ⟨h1, h2, h3, h4, h5⟩ := iter_bounds B T C OC b t h hb ht
  unfold pass2_step pass2_step_ideal
  rw [slice_offset_some T OC b t h1 h2 h3, slice_offset_some T C b t h1 h4 h5,
    mul_int_some o C (row_bound B T C OC o h ho)]
  rfl

theorem pass2_iter_some (B T C OC o : Nat) (h : no_int_overflow B T C OC) (ho : o < OC)
    (m : Bufs α) :
    pass2_iter B T C OC o m = some (pass2_iter_ideal B T C OC o m) := by
  unfold pass2_iter pass2_iter_ideal
  apply forLoopOpt_some
  intro b hb s
  apply forLoopOpt_some
  intro t ht s'
  exact pass2_step_some B T C OC o b t h ho hb ht s'

theorem pass2_some (B T C OC : Nat) (h : no_int_overflow B T C OC) (m : Bufs α) :
    pass2 B T C OC m = some (pass2_ideal B T C OC m) := by
  unfold pass2 pass2_ideal
  apply forLoopOpt_some
  intro o ho s
  exact pass2_iter_some B T C OC o h ho s

/-- When no `int` product overflows the routine returns, and returns what the
loops with exact offsets compute. -/
theorem backward_some (B T C OC : Nat) (h : no_int_overflow B T C OC) (m : Bufs α) :
    cl_matmul_backward B T C OC m = some (backward_ideal B T C OC m) := by
  unfold cl_matmul_backward backward_ideal
  rw [pass1_some B T C OC h, Option.some_bind, pass2_some B T C OC h]

theorem foldl_bind_some {ι σ : Type} (f : ι → σ → Option σ) (g : ι → σ → σ) (l : List ι)
    (h : ∀ x, x ∈ l → ∀ s, f x s = some (g x s)) (s : σ) :
    l.foldl (fun r x => r.bind (f x)) (some s) = some (l.foldl (fun s x => g x s) s) := by
  induction l generalizing s with
  | nil => rfl
  | cons x l ih =>
    simp only [List.foldl_cons, Option.some_bind]
    rw [h x (List.mem_cons_self x l)]
    exact ih (fun y hy => h y (List.mem_cons_of_mem x hy)) _

theorem pass1_sched_some (B T C OC : Nat) (h : no_int_overflow B T C OC)
    (l : List (Nat × Nat)) (hl : l.Perm (pass1_iters B T)) (m : Bufs α) :
    pass1_sched T C OC l m = some (pass1_sched_ideal T C OC l m) := by
  unfold pass1_sched pass1_sched_ideal
  apply foldl_bind_some
  intro x hx s
  have hx' : x ∈ pass1_iters B T := hl.mem_iff.mp hx
  obtain ⟨b, t⟩ := x
  simp only [pass1_iters, List.pair_mem_product, List.mem_range] at hx'
  exact pass1_iter_some B T C OC b t h hx'.1 hx'.2 s

theorem pass2_sched_some (B T C OC : Nat) (h : no_int_overflow B T C OC)
    (l : List Nat) (hl : l.Perm (pass2_iters OC)) (m : Bufs α) :
    pass2_sched B T C OC l m = some (pass2_sched_ideal B T C OC l m) := by
  unfold pass2_sched pass2_sched_ideal
  apply foldl_bind_some
  intro o ho s
  have ho' : o ∈ pass2_iters OC := hl.mem_iff.mp ho
  simp only [pass2_iters, List.mem_range] at ho'
  exact pass2_iter_some B T C OC o h ho' s

/-! ### The routine when an `int` product overflows -/

theorem pass1_iter_none_of_dout (T C OC b t : Nat) (h : slice_offset T OC b t = none)
    (m : Bufs α) : pass1_iter T C OC b t m = none := by
  unfold pass1_iter
  rw [h]
  rfl

theorem pass1_iter_none_of_dinp (T C OC b t : Nat) (h : slice_offset T C b t = none)
    (m : Bufs α) : pass1_iter T C OC b t m = none := by
  unfold pass1_iter
  rw [h]
  cases slice_offset T OC b t <;> rfl

theorem pass1_iter_none_of_row (T C OC b t o : Nat) (ho : o < OC) (h : mul_int o C = none)
    (m : Bufs α) : pass1_iter T C OC b t m = none := by
  unfold pass1_iter
  cases slice_offset T OC b t with
  | none => rfl
  | some x =>
    cases slice_offset T C b t with
    | none => rfl
    | some y =>
      simp only [Option.some_bind]
      apply forLoopOpt_none OC _ m o ho
      intro s
      rw [h]
      rfl

/-- The routine has no result as soon as one iteration `(b, t)` of its first
pass has none. -/
theorem backward_none (B T C OC b t : Nat) (hb : b < B) (ht : t < T)
    (h : ∀ s : Bufs α, pass1_iter T C OC b t s = none) (m : Bufs α) :
    cl_matmul_backward B T C OC m = none := by
  unfold cl_matmul_backward
  have : pass1 B T C OC m = none := by
    unfold pass1
    apply forLoopOpt_none B _ m b hb
    intro s
    exact forLoopOpt_none T _ s t ht h
  rw [this]
  rfl

end NoOverflow

/-! ### Postconditions of `cl_matmul_backward` -/

section Postconditions
variable {α : Type} [CommRing α]

/-- C1 (as amended). Input-gradient postcondition: when no `int` product
overflows, `cl_matmul_backward` returns, and every cell `(b, t, i)` of `dinp`
then holds its old content plus
`sum over o < OC of weight[o*C+i] * dout[(b*T+t)*OC+o]`. -/
theorem backward_dinp_post (B T C OC : Nat) (m : Bufs α) (b t i : Nat)
    (hno : no_int_overflow B T C OC) (hb : b < B) (ht : t < T) (hi : i < C) :
    ∃ m', cl_matmul_backward B T C OC m = some m'
      ∧ m'.dinp ((b * T + t) * C + i)
        = m.dinp ((b * T + t) * C + i)
          + ∑ o ∈ Finset.range OC, m.weight (o * C + i) * m.dout ((b * T + t) * OC + o) :=
  ⟨_, backward_some B T C OC hno m, dinp_after_backward B T C OC m b t i hb ht hi⟩

/-- C2 (as amended). Weight-gradient postcondition: when no `int` product
overflows, `cl_matmul_backward` returns, and every cell `(o, i)` of `dweight`
then holds its old content plus
`sum over b < B, t < T of inp[(b*T+t)*C+i] * dout[(b*T+t)*OC+o]`, whether
`dbias` is present or not. -/
theorem backward_dweight_post (B T C OC : Nat) (m : Bufs α) (o i : Nat)
    (hno : no_int_overflow B T C OC) (ho : o < OC) (hi : i < C) :
    ∃ m', cl_matmul_backward B T C OC m = some m'
      ∧ m'.dweight (o * C + i)
        = m.dweight (o * C + i)
          + ∑ b ∈ Finset.range B, ∑ t ∈ Finset.range T,
              m.inp ((b * T + t) * C + i) * m.dout ((b * T + t) * OC + o) :=
  ⟨_, backward_some B T C OC hno m, dweight_after_backward B T C OC m o i ho hi⟩

/-- C3 (as amended). Bias-gradient postcondition: when no `int` product
overflows and `dbias` is present, `cl_matmul_backward` returns with `dbias`
still present, and every cell `o < OC` holds its old content plus
`sum over b < B, t < T of dout[(b*T+t)*OC+o]`, for every `C`. -/
theorem backward_dbias_post (B T C OC : Nat) (m : Bufs α) (db : Nat → α)
    (hno : no_int_overflow B T C OC) (hdb : m.dbias = some db) :
    ∃ m' db', cl_matmul_backward B T C OC m = some m' ∧ m'.dbias = some db' ∧
      ∀ o, o < OC → db' o = db o
        + ∑ b ∈ Finset.range B, ∑ t ∈ Finset.range T, m.dout ((b * T + t) * OC + o) := by
  obtain ⟨db', h1, h2⟩ := dbias_after_backward B T C OC m db hdb
  exact ⟨_, db', backward_some B T C OC hno m, h1, h2⟩

/-- C4 (as amended). Accumulation contract: when no `int` product overflows,
the call with a first argument set returns `m1 = G0 + g1`, the call with a
second argument set on these gradient buffers returns `m2 = G0 + g1 + g2`, where
`g1`, `g2` are what a single call returns from zero-initialised buffers, and a
second identical call on `g1` returns twice `g1`: old content is added to,
never overwritten. -/
theorem backward_accumulates (B T C OC : Nat) (G0 : Bufs α)
    (dout1 inp1 weight1 dout2 inp2 weight2 : Nat → α) (hno : no_int_overflow B T C OC) :
    ∃ m1 m2 g1 g2 gg,
      cl_matmul_backward B T C OC (G0.withArgs dout1 inp1 weight1) = some m1
      ∧ cl_matmul_backward B T C OC (m1.withArgs dout2 inp2 weight2) = some m2
      ∧ cl_matmul_backward B T C OC (G0.withArgs dout1 inp1 weight1).zeroGrads = some g1
      ∧ cl_matmul_backward B T C OC (G0.withArgs dout2 inp2 weight2).zeroGrads = some g2
      ∧ cl_matmul_backward B T C OC (g1.withArgs dout1 inp1 weight1) = some gg
      ∧ (m2.dinp = G0.dinp + g1.dinp + g2.dinp
        ∧ m2.dweight = G0.dweight + g1.dweight + g2.dweight
        ∧ m2.dbias = addOpt (addOpt G0.dbias g1.dbias) g2.dbias)
      ∧ (m1.dinp = G0.dinp + g1.dinp
        ∧ m1.dweight = G0.dweight + g1.dweight
        ∧ m1.dbias = addOpt G0.dbias g1.dbias)
      ∧ (gg.dinp = 2 • g1.dinp
        ∧ gg.dweight = 2 • g1.dweight
        ∧ gg.dbias = addOpt g1.dbias g1.dbias) :=
  ⟨_, _, _, _, _, backward_some B T C OC hno _, backward_some B T C OC hno _,
    backward_some B T C OC hno _, backward_some B T C OC hno _, backward_some B T C OC hno _,
    ideal_accumulates B T C OC G0 dout1 inp1 weight1 dout2 inp2 weight2⟩

end Postconditions

section GradientClaim
variable {α : Type} [Field α]

/-- C5 (as amended). When no `int` product overflows, `cl_matmul_backward`
returns from zero-initialised `dinp`, `dweight`, `dbias` the finite-difference
gradients of `L = sum of dout * F(inp, weight, bias)`: for every step `h ≠ 0`,
`dinp[k] = (L(inp + h e_k) - L(inp)) / h` for every offset `k < B*T*C`,
`dweight[k] = (L(weight + h e_k) - L(weight)) / h` for every `k < OC*C`, and
`dbias[o] = (L(bias + h e_o) - L(bias)) / h` for every `o < OC`. -/
theorem backward_eq_finite_difference (B T C OC : Nat) (dout inp weight bias : Nat → α)
    (h : α) (hno : no_int_overflow B T C OC) (hh : h ≠ 0) :
    ∃ r, cl_matmul_backward B T C OC
        { dinp := fun _ => 0, dweight := fun _ => 0, dbias := some (fun _ => 0),
          dout := dout, inp := inp, weight := weight } = some r
      ∧ (∀ k, k < B * T * C →
        r.dinp k = (loss B T C OC dout (bump inp k h) weight bias
            - loss B T C OC dout inp weight bias) / h)
      ∧ (∀ k, k < OC * C →
        r.dweight k = (loss B T C OC dout inp (bump weight k h) bias
            - loss B T C OC dout inp weight bias) / h)
      ∧ ∃ db, r.dbias = some db
        ∧ ∀ o, o < OC →
          db o = (loss B T C OC dout inp weight (bump bias o h)
              - loss B T C OC dout inp weight bias) / h :=
  ⟨_, backward_some B T C OC hno _,
    ideal_eq_finite_difference B T C OC dout inp weight bias h hh⟩

end GradientClaim

section FrameClaim
variable {α : Type} [Add α] [Mul α]

/-- C6 (as amended). Absent bias-gradient target: when no `int` product
overflows, the call with `dbias = NULL` returns with `dbias = NULL` (nothing is
written to a bias-gradient buffer) and with the same `dinp` and `dweight` as the
call with any `dbias` buffer `d` present; both calls return `dout`, `inp` and
`weight` unchanged. -/
theorem backward_dbias_absent (B T C OC : Nat) (m : Bufs α) (d : Nat → α)
    (hno : no_int_overflow B T C OC) :
    ∃ r0 r1, cl_matmul_backward B T C OC { m with dbias := none } = some r0
      ∧ cl_matmul_backward B T C OC { m with dbias := some d } = some r1
      ∧ r0.dbias = none
      ∧ r0.dinp = r1.dinp
      ∧ r0.dweight = r1.dweight
      ∧ (r0.dout = m.dout ∧ r0.inp = m.inp ∧ r0.weight = m.weight)
      ∧ (r1.dout = m.dout ∧ r1.inp = m.inp ∧ r1.weight = m.weight) :=
  ⟨_, _, backward_some B T C OC hno _, backward_some B T C OC hno _,
    ideal_dbias_absent B T C OC m d⟩

/-- C10 (as amended). Disjoint-write partitioning and schedule independence
when no `int` product overflows, for arbitrary `+` and `*` (no algebraic law is
used).  Iteration `(b, t)` of the first pass returns, writes only the cells
`[(b*T+t)*C, (b*T+t)*C + C)` of `dinp`, these ranges are pairwise disjoint, and
what it leaves in a cell depends only on `dout`, `weight` and the old content
of that same cell; iteration `o` of the second pass returns, writes only the
cells `[o*C, o*C + C)` of `dweight` and cell `o` of `dbias`, pairwise disjoint,
with the same locality.  Hence every permutation `l1` of the iterations of the
first pass and every permutation `l2` of those of the second, with the passes in
either order, return exactly the buffers of the sequential routine. -/
theorem backward_schedule_independent (B T C OC : Nat) (m : Bufs α)
    (l1 : List (Nat × Nat)) (l2 : List Nat) (hno : no_int_overflow B T C OC)
    (h1 : l1.Perm (pass1_iters B T)) (h2 : l2.Perm (pass2_iters OC)) :
    (∀ (b t : Nat) (s : Bufs α), b < B → t < T →
      ∃ s', pass1_iter T C OC b t s = some s'
        ∧ (∀ k, ¬ ((b * T + t) * C ≤ k ∧ k < (b * T + t) * C + C) → s'.dinp k = s.dinp k)
        ∧ s'.dweight = s.dweight ∧ s'.dbias = s.dbias
        ∧ s'.dout = s.dout ∧ s'.inp = s.inp ∧ s'.weight = s.weight)
    ∧ (∀ b t b' t' k : Nat, t < T → t' < T → (b, t) ≠ (b', t') →
        ¬ (((b * T + t) * C ≤ k ∧ k < (b * T + t) * C + C)
          ∧ ((b' * T + t') * C ≤ k ∧ k < (b' * T + t') * C + C)))
    ∧ (∀ (b t : Nat) (s1 s2 : Bufs α) (k : Nat), b < B → t < T →
        s1.dout = s2.dout → s1.weight = s2.weight → s1.dinp k = s2.dinp k →
        ∃ r1 r2, pass1_iter T C OC b t s1 = some r1 ∧ pass1_iter T C OC b t s2 = some r2
          ∧ r1.dinp k = r2.dinp k)
    ∧ (∀ (o : Nat) (s : Bufs α), o < OC →
      ∃ s', pass2_iter B T C OC o s = some s'
        ∧ (∀ k, ¬ (o * C ≤ k ∧ k < o * C + C) → s'.dweight k = s.dweight k)
        ∧ (∀ k, k ≠ o → s'.dbias.map (fun db => db k) = s.dbias.map (fun db => db k))
        ∧ s'.dinp = s.dinp ∧ s'.dout = s.dout ∧ s'.inp = s.inp ∧ s'.weight = s.weight)
    ∧ (∀ o o' k : Nat, o ≠ o' →
        ¬ ((o * C ≤ k ∧ k < o * C + C) ∧ (o' * C ≤ k ∧ k < o' * C + C)))
    ∧ (∀ (o : Nat) (s1 s2 : Bufs α) (k : Nat), o < OC → s1.dout = s2.dout → s1.inp = s2.inp →
        ∃ r1 r2, pass2_iter B T C OC o s1 = some r1 ∧ pass2_iter B T C OC o s2 = some r2
          ∧ (s1.dweight k = s2.dweight k → r1.dweight k = r2.dweight k)
          ∧ (s1.dbias.map (fun db => db k) = s2.dbias.map (fun db => db k) →
            r1.dbias.map (fun db => db k) = r2.dbias.map (fun db => db k)))
    ∧ ∃ p1 p2 r, pass1 B T C OC m = some p1 ∧ pass1_sched T C OC l1 m = some p1
        ∧ pass2 B T C OC m = some p2 ∧ pass2_sched B T C OC l2 m = some p2
        ∧ cl_matmul_backward B T C OC m = some r
        ∧ pass2_sched B T C OC l2 p1 = some r
        ∧ pass1_sched T C OC l1 p2 = some r := by
  obtain ⟨a1, a2, a3, a4, a5, a6, a7, a8, a9, a10⟩ :=
    ideal_schedule_independent B T C OC m l1 l2 h1 h2
  refine ⟨?_, a2, ?_, ?_, a5, ?_, ?_⟩
  · intro b t s hb ht
    exact ⟨_, pass1_iter_some B T C OC b t hno hb ht s, a1 b t s⟩
  · intro b t s1 s2 k hb ht hd hw hk
    exact ⟨_, _, pass1_iter_some B T C OC b t hno hb ht s1,
      pass1_iter_some B T C OC b t hno hb ht s2, a3 b t s1 s2 k hd hw hk⟩
  · intro o s ho
    exact ⟨_, pass2_iter_some B T C OC o hno ho s, a4 o s⟩
  · intro o s1 s2 k ho hd hi
    exact ⟨_, _, pass2_iter_some B T C OC o hno ho s1, pass2_iter_some B T C OC o hno ho s2,
      a6 o s1 s2 k hd hi⟩
  · refine ⟨pass1_ideal B T C OC m, pass2_ideal B T C OC m, backward_ideal B T C OC m,
      pass1_some B T C OC hno m, ?_, pass2_some B T C OC hno m, ?_,
      backward_some B T C OC hno m, ?_, ?_⟩
    · rw [pass1_sched_some B T C OC hno l1 h1, a7]
    · rw [pass2_sched_some B T C OC hno l2 h2, a8]
    · rw [pass2_sched_some B T C OC hno l2 h2]
      have := (ideal_schedule_independent B T C OC (pass1_ideal B T C OC m) l1 l2 h1 h2).2.2.2.2.2.2.2.1
      rw [this]
      rfl
    · rw [pass1_sched_some B T C OC hno l1 h1]
      have := (ideal_schedule_independent B T C OC (pass2_ideal B T C OC m) l1 l2 h1 h2).2.2.2.2.2.2.1
      rw [this, pass1_pass2_comm]
      rfl

end FrameClaim

/-! ### Instances on concrete data -/

section Witnesses

/-- Witness for C1: in the scenario (identity weights, `dout` all ones, zeroed
`dinp`) the routine returns and cell `(1, 0, 1)` of `dinp` holds `1`. -/
theorem backward_dinp_post_witness :
    (no_int_overflow 2 2 2 2 ∧ 1 < 2 ∧ 0 < 2 ∧ 1 < 2)
    ∧ (∃ m', cl_matmul_backward 2 2 2 2 scenario = some m'
      ∧ m'.dinp ((1 * 2 + 0) * 2 + 1)
        = scenario.dinp ((1 * 2 + 0) * 2 + 1)
          + ∑ o ∈ Finset.range 2,
              scenario.weight (o * 2 + 1) * scenario.dout ((1 * 2 + 0) * 2 + o))
    ∧ (cl_matmul_backward 2 2 2 2 scenario).map (fun m' => m'.dinp 5) = some 1 :=
  ⟨by decide,
    backward_dinp_post 2 2 2 2 scenario 1 0 1 (by decide) (by decide) (by decide) (by decide),
    by decide⟩

/-- Counterexample for C1 as stated: `B = 1`, `T = 3`, `C = 1`, `OC = 2^30`.  In
iteration `(0, 2)` the product `t * OC = 2^31` is not an `int`, so the routine
has no result and no `dinp` satisfies the postcondition at cell `(0, 2, 0)`. -/
theorem backward_dinp_post_overflow :
    (0 < 1 ∧ 2 < 3 ∧ 0 < 1) ∧ mul_int 2 (2 ^ 30) = none
    ∧ cl_matmul_backward 1 3 1 (2 ^ 30) scenario = none
    ∧ ¬ ∃ m', cl_matmul_backward 1 3 1 (2 ^ 30) scenario = some m'
        ∧ m'.dinp ((0 * 3 + 2) * 1 + 0)
          = scenario.dinp ((0 * 3 + 2) * 1 + 0)
            + ∑ o ∈ Finset.range (2 ^ 30),
                scenario.weight (o * 1 + 0) * scenario.dout ((0 * 3 + 2) * 2 ^ 30 + o) :=
  have hn : cl_matmul_backward 1 3 1 (2 ^ 30) scenario = none :=
    backward_none 1 3 1 (2 ^ 30) 0 2 (by decide) (by decide)
      (pass1_iter_none_of_dout 3 1 (2 ^ 30) 0 2 (by decide)) scenario
  ⟨by decide, by decide, hn, fun ⟨_, h, _⟩ => by rw [hn] at h; cases h⟩

/-- Witness for C2: in the scenario the routine returns and cell `(1, 0)` of
`dweight` holds the column sum `1 + 3 + 5 + 7 = 16`. -/
theorem backward_dweight_post_witness :
    (no_int_overflow 2 2 2 2 ∧ 1 < 2 ∧ 0 < 2)
    ∧ (∃ m', cl_matmul_backward 2 2 2 2 scenario = some m'
      ∧ m'.dweight (1 * 2 + 0)
        = scenario.dweight (1 * 2 + 0)
          + ∑ b ∈ Finset.range 2, ∑ t ∈ Finset.range 2,
              scenario.inp ((b * 2 + t) * 2 + 0) * scenario.dout ((b * 2 + t) * 2 + 1))
    ∧ (cl_matmul_backward 2 2 2 2 scenario).map (fun m' => m'.dweight 2) = some 16 :=
  ⟨by decide, backward_dweight_post 2 2 2 2 scenario 1 0 (by decide) (by decide) (by decide),
    by decide⟩

/-- Counterexample for C2 as stated: the shape `B = 64`, `T = 1024`, `C = 768`,
`OC = 50257`.  In iteration `(63, 0)` the product `b * T * OC = 3242179584` is
not an `int`, so the routine has no result and no `dweight` satisfies the
postcondition at cell `(0, 0)`. -/
theorem backward_dweight_post_overflow :
    (0 < 50257 ∧ 0 < 768) ∧ mul_int (63 * 1024) 50257 = none
    ∧ cl_matmul_backward 64 1024 768 50257 scenario = none
    ∧ ¬ ∃ m', cl_matmul_backward 64 1024 768 50257 scenario = some m'
        ∧ m'.dweight (0 * 768 + 0)
          = scenario.dweight (0 * 768 + 0)
            + ∑ b ∈ Finset.range 64, ∑ t ∈ Finset.range 1024,
                scenario.inp ((b * 1024 + t) * 768 + 0)
                  * scenario.dout ((b * 1024 + t) * 50257 + 0) :=
  have hn : cl_matmul_backward 64 1024 768 50257 scenario = none :=
    backward_none 64 1024 768 50257 63 0 (by decide) (by decide)
      (pass1_iter_none_of_dout 1024 768 50257 63 0 (by decide)) scenario
  ⟨by decide, by decide, hn, fun ⟨_, h, _⟩ => by rw [hn] at h; cases h⟩

/-- Witness for C3: in the scenario the routine returns with `dbias = [4, 4]`. -/
theorem backward_dbias_post_witness :
    (no_int_overflow 2 2 2 2 ∧ scenario.dbias = some (fun _ => 0))
    ∧ (∃ m' db', cl_matmul_backward 2 2 2 2 scenario = some m' ∧ m'.dbias = some db' ∧
        ∀ o, o < 2 → db' o = (fun _ => (0 : Int)) o
          + ∑ b ∈ Finset.range 2, ∑ t ∈ Finset.range 2, scenario.dout ((b * 2 + t) * 2 + o))
    ∧ ((cl_matmul_backward 2 2 2 2 scenario).bind (fun m' => m'.dbias)).map
        (fun db => [db 0, db 1]) = some [4, 4] :=
  ⟨⟨by decide, rfl⟩, backward_dbias_post 2 2 2 2 scenario (fun _ => 0) (by decide) rfl,
    by decide⟩

/-- Counterexample for C3 as stated: `B = 1`, `T = 3`, `C = 0`, `OC = 2^30` with
`dbias` present.  The offset of `dout` in iteration `(0, 2)` needs the product
`t * OC = 2^31`, which is not an `int`: the routine has no result, so no
`dbias` satisfies the postcondition. -/
theorem backward_dbias_post_overflow :
    scenario.dbias = some (fun _ => 0) ∧ slice_offset 3 (2 ^ 30) 0 2 = none
    ∧ cl_matmul_backward 1 3 0 (2 ^ 30) scenario = none
    ∧ ¬ ∃ m' db', cl_matmul_backward 1 3 0 (2 ^ 30) scenario = some m' ∧ m'.dbias = some db' ∧
        ∀ o, o < 2 ^ 30 → db' o = (fun _ => (0 : Int)) o
          + ∑ b ∈ Finset.range 1, ∑ t ∈ Finset.range 3,
              scenario.dout ((b * 3 + t) * 2 ^ 30 + o) :=
  have hn : cl_matmul_backward 1 3 0 (2 ^ 30) scenario = none :=
    backward_none 1 3 0 (2 ^ 30) 0 2 (by decide) (by decide)
      (pass1_iter_none_of_dout 3 0 (2 ^ 30) 0 2 (by decide)) scenario
  ⟨rfl, by decide, hn, fun ⟨_, _, h, _⟩ => by rw [hn] at h; cases h⟩

/-- Witness for C4: the scenario, called twice with the same arguments. -/
theorem backward_accumulates_witness :
    no_int_overflow 2 2 2 2
    ∧ (∃ m1 m2 g1 g2 gg,
      cl_matmul_backward 2 2 2 2 (scenario.withArgs scenario.dout scenario.inp scenario.weight)
        = some m1
      ∧ cl_matmul_backward 2 2 2 2 (m1.withArgs scenario.dout scenario.inp scenario.weight)
        = some m2
      ∧ cl_matmul_backward 2 2 2 2
          (scenario.withArgs scenario.dout scenario.inp scenario.weight).zeroGrads = some g1
      ∧ cl_matmul_backward 2 2 2 2
          (scenario.withArgs scenario.dout scenario.inp scenario.weight).zeroGrads = some g2
      ∧ cl_matmul_backward 2 2 2 2 (g1.withArgs scenario.dout scenario.inp scenario.weight)
        = some gg
      ∧ (m2.dinp = scenario.dinp + g1.dinp + g2.dinp
        ∧ m2.dweight = scenario.dweight + g1.dweight + g2.dweight
        ∧ m2.dbias = addOpt (addOpt scenario.dbias g1.dbias) g2.dbias)
      ∧ (m1.dinp = scenario.dinp + g1.dinp
        ∧ m1.dweight = scenario.dweight + g1.dweight
        ∧ m1.dbias = addOpt scenario.dbias g1.dbias)
      ∧ (gg.dinp = 2 • g1.dinp
        ∧ gg.dweight = 2 • g1.dweight
        ∧ gg.dbias = addOpt g1.dbias g1.dbias))
    ∧ ((cl_matmul_backward 2 2 2 2 scenario).bind (cl_matmul_backward 2 2 2 2)).map
        (fun m2 => [m2.dinp 5, m2.dweight 2]) = some [2, 32] :=
  ⟨by decide,
    backward_accumulates 2 2 2 2 scenario scenario.dout scenario.inp scenario.weight
      scenario.dout scenario.inp scenario.weight (by decide),
    by decide⟩

/-- Counterexample for C4 as stated: `B = 2`, `T = 65536`, `C = 1`, `OC = 65536`.
In iteration `(1, 0)` the product `b * T * OC = 2^32` is not an `int`: already
the first call has no result, so no buffers equal to `G0 + g1 + g2` are left. -/
theorem backward_accumulates_overflow :
    slice_offset 65536 65536 1 0 = none
    ∧ cl_matmul_backward 2 65536 1 65536
        (scenario.withArgs scenario.dout scenario.inp scenario.weight) = none
    ∧ ¬ ∃ m1, cl_matmul_backward 2 65536 1 65536
        (scenario.withArgs scenario.dout scenario.inp scenario.weight) = some m1 :=
  have hn : cl_matmul_backward 2 65536 1 65536
      (scenario.withArgs scenario.dout scenario.inp scenario.weight) = none :=
    backward_none 2 65536 1 65536 1 0 (by decide) (by decide)
      (pass1_iter_none_of_dout 65536 1 65536 1 0 (by decide)) _
  ⟨by decide, hn, fun ⟨_, h⟩ => by rw [hn] at h; cases h⟩

/-- Witness for C5: over the rationals, with step `h = 2`, at offset `5` of
`inp` and offset `2` of `weight`. -/
theorem backward_eq_finite_difference_witness :
    (no_int_overflow 2 2 2 2 ∧ (2 : ℚ) ≠ 0)
    ∧ ∃ r, cl_matmul_backward 2 2 2 2
        { dinp := fun _ => 0, dweight := fun _ => 0, dbias := some (fun _ => 0),
          dout := fun _ => 1, inp := scenario_inp, weight := scenario_weight } = some r
      ∧ (∀ k, k < 2 * 2 * 2 →
        r.dinp k = (loss 2 2 2 2 (fun _ => 1) (bump scenario_inp k 2) scenario_weight
              (fun _ => 0)
            - loss 2 2 2 2 (fun _ => 1) scenario_inp scenario_weight (fun _ => 0)) / 2)
      ∧ (∀ k, k < 2 * 2 →
        r.dweight k = (loss 2 2 2 2 (fun _ => 1) scenario_inp (bump scenario_weight k 2)
              (fun _ => 0)
            - loss 2 2 2 2 (fun _ => 1) scenario_inp scenario_weight (fun _ => 0)) / 2)
      ∧ ∃ db, r.dbias = some db
        ∧ ∀ o, o < 2 →
          db o = (loss 2 2 2 2 (fun _ => 1) scenario_inp scenario_weight
                (bump (fun _ => 0) o 2)
              - loss 2 2 2 2 (fun _ => 1) scenario_inp scenario_weight (fun _ => 0)) / 2 :=
  ⟨⟨by decide, by decide⟩,
    backward_eq_finite_difference 2 2 2 2 (fun _ => 1) scenario_inp scenario_weight
      (fun _ => 0) 2 (by decide) (by decide)⟩

/-- Counterexample for C5 as stated: `B = T = 1`, `C = OC = 65536`, over the
rationals.  The offset of row `o = 32768` of `weight` is the product
`o * C = 2^31`, which is not an `int`: the routine has no result, so it returns
no gradient to compare with the finite differences. -/
theorem backward_eq_finite_difference_overflow :
    (32768 < 65536 ∧ (2 : ℚ) ≠ 0) ∧ mul_int 32768 65536 = none
    ∧ cl_matmul_backward 1 1 65536 65536 scenario_rat = none
    ∧ ¬ ∃ r, cl_matmul_backward 1 1 65536 65536 scenario_rat = some r
        ∧ r.dinp 0 = (loss 1 1 65536 65536 scenario_rat.dout (bump scenario_rat.inp 0 2)
              scenario_rat.weight (fun _ => 0)
            - loss 1 1 65536 65536 scenario_rat.dout scenario_rat.inp scenario_rat.weight
              (fun _ => 0)) / 2 :=
  have hn : cl_matmul_backward 1 1 65536 65536 scenario_rat = none :=
    backward_none 1 1 65536 65536 0 0 (by decide) (by decide)
      (pass1_iter_none_of_row 1 65536 65536 0 0 32768 (by decide) (by decide)) scenario_rat
  ⟨⟨by decide, by decide⟩, by decide, hn, fun ⟨_, h, _⟩ => by rw [hn] at h; cases h⟩

/-- Witness for C6: the scenario without and with a bias-gradient buffer. -/
theorem backward_dbias_absent_witness :
    no_int_overflow 2 2 2 2
    ∧ (∃ r0 r1, cl_matmul_backward 2 2 2 2 { scenario with dbias := none } = some r0
      ∧ cl_matmul_backward 2 2 2 2 { scenario with dbias := some (fun _ => 7) } = some r1
      ∧ r0.dbias = none
      ∧ r0.dinp = r1.dinp
      ∧ r0.dweight = r1.dweight
      ∧ (r0.dout = scenario.dout ∧ r0.inp = scenario.inp ∧ r0.weight = scenario.weight)
      ∧ (r1.dout = scenario.dout ∧ r1.inp = scenario.inp ∧ r1.weight = scenario.weight))
    ∧ (cl_matmul_backward 2 2 2 2 { scenario with dbias := none }).map
        (fun r0 => (r0.dbias.isSome, r0.dinp 5, r0.dweight 2)) = some (false, 1, 16) :=
  ⟨by decide, backward_dbias_absent 2 2 2 2 scenario (fun _ => 7) (by decide), by decide⟩

/-- Counterexample for C6 as stated: `B = 3`, `T = C = 32768`, `OC = 1` with
`dbias = NULL`.  The offset of `dinp` in iteration `(2, 0)` needs the product
`b * T * C = 2^31`, which is not an `int`: the call has no result, so it does
not return `(dinp', dweight', none)`. -/
theorem backward_dbias_absent_overflow :
    slice_offset 32768 32768 2 0 = none
    ∧ cl_matmul_backward 3 32768 32768 1 { scenario with dbias := none } = none
    ∧ ¬ ∃ r0, cl_matmul_backward 3 32768 32768 1 { scenario with dbias := none } = some r0
        ∧ r0.dbias = none :=
  have hn : cl_matmul_backward 3 32768 32768 1 { scenario with dbias := none } = none :=
    backward_none 3 32768 32768 1 2 0 (by decide) (by decide)
      (pass1_iter_none_of_dinp 32768 32768 1 2 0 (by decide)) _
  ⟨by decide, hn, fun ⟨_, h, _⟩ => by rw [hn] at h; cases h⟩

/-- Witness for C8: when the binding of `T` returns `-30` the process exits with
status 1 after the binding stage, having printed the diagnostic with the code;
nothing is launched or read back. -/
theorem forward_fatal_on_error_witness :
    (binding_fails.valid ∧ transfers_ok binding_fails false ∧ ¬ bindings_ok binding_fails)
    ∧ (cl_matmul_forward 4 ref_kernel binding_fails fresh_context (fun _ => 0)
        (of_list [1, 2, 3]) (of_list [1, 1, 1]) none 1 1 3 1).exited = some 1
    ∧ (cl_matmul_forward 4 ref_kernel binding_fails fresh_context (fun _ => 0)
        (of_list [1, 2, 3]) (of_list [1, 1, 1]) none 1 1 3 1).printed
        = ["error: failed to set kernel arguments! " ++ toString (bindings_err binding_fails)
            ++ "\n"]
    ∧ (cl_matmul_forward 4 ref_kernel binding_fails fresh_context (fun _ => 0)
        (of_list [1, 2, 3]) (of_list [1, 1, 1]) none 1 1 3 1).gcl.calls
        = [DevCall.write_A 12, DevCall.write_B 12, DevCall.set_arg 4 1, DevCall.set_arg 5 1,
            DevCall.set_arg 6 3, DevCall.set_arg 7 1, DevCall.set_arg 8 0]
    ∧ (cl_matmul_forward 4 ref_kernel binding_fails fresh_context (fun _ => 0)
        (of_list [1, 2, 3]) (of_list [1, 1, 1]) none 1 1 3 1).printed
        = ["error: failed to set kernel arguments! -30\n"] :=
  have hyp : binding_fails.valid ∧ transfers_ok binding_fails false
      ∧ ¬ bindings_ok binding_fails :=
    ⟨by decide, ⟨rfl, rfl, fun h => Bool.noConfusion h⟩, fun h => by cases h.2.1⟩
  have w := (forward_fatal_on_error 4 ref_kernel binding_fails fresh_context (fun _ => 0)
    (of_list [1, 2, 3]) (of_list [1, 1, 1]) none 1 1 3 1 hyp.1).2.2.2.1 hyp.2.1 hyp.2.2
  ⟨hyp, w.1, w.2.1, w.2.2.2, by decide⟩

/-- Witness for C9: the boundary shape `B = 1`, `T = 3`, `C = 4`, `OC = 5` with
tile size `4`, every device call succeeding and the reference kernel on the
device; the last output element is `40 + 8*17 + 9*18 + 10*19 + 11*20 = 748`. -/
theorem forward_result_witness :
    (KernelSpec (ref_kernel : Kernel Int) ∧ 0 < 4 ∧ 4 < 2 ^ 64 ∧ 1 < 2 ^ 31 ∧ 3 < 2 ^ 31
      ∧ 4 < 2 ^ 31 ∧ 5 < 2 ^ 31 ∧ 1 * 3 < 2 ^ 31 ∧ 1 * 3 + 4 - 1 < 2 ^ 64
      ∧ 5 + 4 - 1 < 2 ^ 64 ∧ transfers_ok all_success true ∧ bindings_ok all_success
      ∧ all_success.nd_range = 0 ∧ all_success.read_out = 0)
    ∧ (cl_matmul_forward 4 ref_kernel all_success fresh_context (fun _ => 0)
        (fun k => k) (fun k => k + 1) (some (fun k => 10 * k)) 1 3 4 5).exited = none
    ∧ (cl_matmul_forward 4 ref_kernel all_success fresh_context (fun _ => 0)
        (fun k => k) (fun k => k + 1) (some (fun k => 10 * k)) 1 3 4 5).out ((0 * 3 + 2) * 5 + 4)
        = (fun k => 10 * (k : Int)) 4
          + ∑ c ∈ Finset.range 4,
              (fun k => (k : Int)) ((0 * 3 + 2) * 4 + c) * (fun k => (k : Int) + 1) (4 * 4 + c)
    ∧ (cl_matmul_forward 4 ref_kernel all_success fresh_context (fun _ => 0)
        (fun k => k) (fun k => k + 1) (some (fun k => 10 * k)) 1 3 4 5).out 14 = 748 :=
  have hst : transfers_ok all_success true ∧ bindings_ok all_success :=
    ⟨⟨rfl, rfl, fun _ => rfl⟩, ⟨rfl, rfl, rfl, rfl, rfl⟩⟩
  have w := forward_result 4 ref_kernel all_success fresh_context (fun _ => 0)
    (fun k => k) (fun k => k + 1) (some (fun k => 10 * k)) 1 3 4 5 ref_kernel_spec
    (by decide) (by decide) (by decide) (by decide) (by decide) (by decide) (by decide)
    (by decide) (by decide) hst.1 hst.2 rfl rfl
  ⟨⟨ref_kernel_spec, by decide, by decide, by decide, by decide, by decide, by decide,
      by decide, by decide, by decide, hst.1, hst.2, rfl, rfl⟩,
    w.1, w.2.2.1 _ rfl 0 2 4 (by decide) (by decide) (by decide), by decide⟩

/-- Counterexample for C9 as stated: `B = 65536`, `T = 65537`, `C = OC = 1`, tile
size `4`, `inp` and `weight` all ones, no `bias`, every device call succeeding
and the reference kernel on the device.  The `int` product `B * T` wraps to
`65536`, the grid has `65536` rows, and the routine returns with
`out[65536] = 0` where the affine value is `1`. -/
theorem forward_result_overflow :
    (KernelSpec (ref_kernel : Kernel Int) ∧ transfers_ok all_success false
      ∧ bindings_ok all_success ∧ all_success.nd_range = 0 ∧ all_success.read_out = 0
      ∧ 0 < 65536 ∧ 65536 < 65537 ∧ 0 < 1)
    ∧ ¬ (65536 * 65537 < 2 ^ 31)
    ∧ bt_round 4 65536 65537 = 65536
    ∧ (cl_matmul_forward 4 ref_kernel all_success fresh_context (fun _ => 0)
        (fun _ => 1) (fun _ => 1) none 65536 65537 1 1).exited = none
    ∧ (cl_matmul_forward 4 ref_kernel all_success fresh_context (fun _ => 0)
        (fun _ => 1) (fun _ => 1) none 65536 65537 1 1).out ((0 * 65537 + 65536) * 1 + 0) = 0
    ∧ (cl_matmul_forward 4 ref_kernel all_success fresh_context (fun _ => 0)
        (fun _ => 1) (fun _ => 1) none 65536 65537 1 1).out ((0 * 65537 + 65536) * 1 + 0)
        ≠ ∑ c ∈ Finset.range 1,
            (fun _ => (1 : Int)) ((0 * 65537 + 65536) * 1 + c) * (fun _ => (1 : Int)) (0 * 1 + c) :=
  ⟨⟨ref_kernel_spec, ⟨rfl, rfl, fun h => Bool.noConfusion h⟩, ⟨rfl, rfl, rfl, rfl, rfl⟩,
      rfl, rfl, by decide, by decide, by decide⟩,
    by decide, by decide, by decide, by decide, by decide⟩

/-- Witness for C10: the scenario with the iterations of the first pass in the
order `(1,1), (0,0), (1,0), (0,1)` and those of the second in the order `1, 0`. -/
theorem backward_schedule_independent_witness :
    (no_int_overflow 2 2 2 2 ∧ [(1, 1), (0, 0), (1, 0), (0, 1)].Perm (pass1_iters 2 2)
      ∧ [1, 0].Perm (pass2_iters 2))
    ∧ (∃ p1 p2 r, pass1 2 2 2 2 scenario = some p1
        ∧ pass1_sched 2 2 2 [(1, 1), (0, 0), (1, 0), (0, 1)] scenario = some p1
        ∧ pass2 2 2 2 2 scenario = some p2 ∧ pass2_sched 2 2 2 2 [1, 0] scenario = some p2
        ∧ cl_matmul_backward 2 2 2 2 scenario = some r
        ∧ pass2_sched 2 2 2 2 [1, 0] p1 = some r
        ∧ pass1_sched 2 2 2 [(1, 1), (0, 0), (1, 0), (0, 1)] p2 = some r)
    ∧ ((pass2_sched 2 2 2 2 [1, 0] scenario).bind
        (pass1_sched 2 2 2 [(1, 1), (0, 0), (1, 0), (0, 1)])).map
        (fun r => [r.dinp 5, r.dweight 2]) = some [1, 16] :=
  ⟨by decide,
    (backward_schedule_independent 2 2 2 2 scenario [(1, 1), (0, 0), (1, 0), (0, 1)] [1, 0]
      (by decide) (by decide) (by decide)).2.2.2.2.2.2,
    by decide⟩

/-- Counterexample for C10 as stated: `B = 2`, `T = C = 65536`, `OC = 1`.  The
offset of the slice of iteration `(1, 0)` is the product `b * T * C = 2^32`,
which is not an `int`: the iteration has no result, hence neither writes only
the cells `[(1*T+0)*C, (1*T+0)*C + C)` nor leaves any buffers, and neither the
sequential routine nor a schedule of the first pass returns. -/
theorem backward_schedule_independent_overflow :
    (1 < 2 ∧ 0 < 65536) ∧ slice_offset 65536 65536 1 0 = none
    ∧ pass1_iter 65536 65536 1 1 0 scenario = none
    ∧ cl_matmul_backward 2 65536 65536 1 scenario = none
    ∧ ¬ ∃ s', pass1_iter 65536 65536 1 1 0 scenario = some s'
        ∧ (∀ k, ¬ ((1 * 65536 + 0) * 65536 ≤ k ∧ k < (1 * 65536 + 0) * 65536 + 65536) →
          s'.dinp k = scenario.dinp k) :=
  have hi : ∀ s : Bufs Int, pass1_iter 65536 65536 1 1 0 s = none :=
    pass1_iter_none_of_dinp 65536 65536 1 1 0 (by decide)
  ⟨by decide, by decide, hi scenario,
    backward_none 2 65536 65536 1 1 0 (by decide) (by decide) hi scenario,
    fun ⟨_, h, _⟩ => by rw [hi scenario] at h; cases h⟩

end Witnesses
end MlInference
